import Mathlib

/-!
Verification development for the tricycle-fleet microsimulator
(generator/entities.py, generator/algos.py, generator/scenarios/real.py).

Conventions of the shallow embedding:
* Python floats are modelled as rationals (ℚ); simulation times are integers.
* Entity identifiers (strings such as trike_0, passenger_3 in the source) are
  modelled as naturals.
* Transcendental geometry (util.haversine, util.get_euclidean_distance, which
  use sin/cos/atan2/sqrt) is modelled as function parameters collected in an
  Env record; util.interpolate_points is linear and is embedded exactly.
* The external OSRM router (util.find_path_between_points_in_osrm) is an
  oracle parameter returning either a polyline or an error; NoRoute models the
  NoRoute exception and transient models any other exception of the HTTP call.
* Python object references are replaced by identifier references into
  registries held in SimState, with lookups at each use site to mirror
  reference semantics.
-/

namespace TricycleSim

/-- Geographic coordinate (entities.Point). -/
structure Point where
  x : ℚ
  y : ℚ
deriving DecidableEq, Repr

/-- util.interpolate_points: linear blend of two points. -/
def interpolatePoints (a b : Point) (t : ℚ) : Point :=
  ⟨a.x + (b.x - a.x) * t, a.y + (b.y - a.y) * t⟩

/-- entities.Path.getDistance: sum of pairwise leg lengths along a polyline,
using the Euclidean metric (passed as a parameter since the source's
util.get_euclidean_distance takes a square root). -/
def pathDistance (euclid : Point → Point → ℚ) : List Point → ℚ
  | [] => 0
  | [_] => 0
  | a :: b :: rest => euclid a b + pathDistance euclid (b :: rest)

/-- entities.MS_PER_FRAME. -/
def MS_PER_FRAME : Int := 1000

/-- entities.DETECTION_RADIUS_METERS. -/
def DETECTION_RADIUS_METERS : ℚ := 100

/-- entities.DROPOFF_RADIUS_METERS. -/
def DROPOFF_RADIUS_METERS : ℚ := 2

/-- entities.PICKUP_RADIUS_METERS. -/
def PICKUP_RADIUS_METERS : ℚ := 2

/-- entities.PassengerStatus. -/
inductive PassengerStatus where
  | waiting
  | enqueued
  | onboard
  | completed
deriving DecidableEq, Repr

/-- entities.TricycleStatus. -/
inductive TricycleStatus where
  | idle
  | serving
  | terminal
  | roaming
  | returningToTerminal
deriving DecidableEq, Repr

/-- Event record types appearing in the per-entity event logs. -/
inductive EventType where
  | appear
  | move
  | load
  | wait
  | enqueue
  | dropoff
  | reset
  | finish
deriving DecidableEq, Repr

/-- One event log entry: type, tick, location, and the optional data field
(a MOVE count, a WAIT duration, or an agent identifier). -/
structure Event where
  etype : EventType
  time : Int
  data : Option Nat
  loc : Point
deriving DecidableEq, Repr

/-- entities.Passenger: lifecycle state and event log. -/
structure Passenger where
  id : Nat
  src : Point
  dest : Point
  createTime : Int
  deathTime : Int
  pickupTime : Int
  enqueueTime : Int
  offloadTime : Int
  status : PassengerStatus
  claimedBy : Option Nat
  events : List Event
  path : List Point
deriving DecidableEq, Repr

/-- entities.Passenger.__init__: a fresh WAITING passenger with an APPEAR
event. The offloadTime attribute is set dynamically by the driver
(real.py line 429); it starts here at -1 for "never". -/
def Passenger.init (id : Nat) (src dest : Point) (createTime deathTime : Int) :
    Passenger :=
  { id := id
    src := src
    dest := dest
    createTime := createTime
    deathTime := deathTime
    pickupTime := -1
    enqueueTime := -1
    offloadTime := -1
    status := .waiting
    claimedBy := none
    events := [⟨.appear, createTime, none, src⟩]
    path := [src] }

/-- entities.Passenger.onEnqueue. -/
def Passenger.onEnqueue (p : Passenger) (trikeId : Nat) (time : Int)
    (loc : Point) : Passenger :=
  { p with
    status := .enqueued
    claimedBy := some trikeId
    enqueueTime := time
    events := p.events ++ [⟨.enqueue, time, some trikeId, loc⟩] }

/-- entities.Passenger.onLoad. -/
def Passenger.onLoad (p : Passenger) (trikeId : Nat) (time : Int)
    (loc : Point) : Passenger :=
  { p with
    events := p.events ++ [⟨.load, time, some trikeId, loc⟩]
    status := .onboard
    pickupTime := time
    claimedBy := some trikeId }

/-- entities.Passenger.onDropoff: note that claimedBy is left untouched so the
DROP-OFF event can carry the tricycle identifier. -/
def Passenger.onDropoff (p : Passenger) (time : Int) (loc : Point) :
    Passenger :=
  { p with
    events := p.events ++ [⟨.dropoff, time, p.claimedBy, loc⟩]
    status := .completed
    deathTime := time }

/-- entities.Passenger.onReset: back to WAITING, claim cleared, RESET event
carrying the previous claimant. -/
def Passenger.onReset (p : Passenger) (time : Int) (loc : Point) : Passenger :=
  { p with
    status := .waiting
    claimedBy := none
    events := p.events ++ [⟨.reset, time, p.claimedBy, loc⟩] }

/-- entities.Passenger.checkEnqueueTimeout: an ENQUEUED passenger times out
when the ticks since enqueue exceed max(2·detection_radius/(speed·MS_PER_FRAME), 60). -/
def Passenger.checkEnqueueTimeout (p : Passenger) (now : Int) (speed : ℚ) :
    Bool :=
  p.status = .enqueued ∧ p.enqueueTime ≠ -1 ∧
    ((now - p.enqueueTime : Int) : ℚ) >
      max (DETECTION_RADIUS_METERS * 2 / (speed * (MS_PER_FRAME : ℚ))) 60

/-- The passenger-facing operations that the engine invokes, used to describe
the reachable passenger lifecycles. -/
inductive PassengerOp where
  | enqueue (trikeId : Nat) (time : Int)
  | load (trikeId : Nat) (time : Int)
  | dropoff (time : Int)
  | reset (time : Int)
deriving DecidableEq, Repr

/-- Apply one lifecycle operation (the corresponding entities.Passenger
method) to a passenger. -/
def applyPassengerOp (p : Passenger) : PassengerOp → Passenger
  | .enqueue tid t => p.onEnqueue tid t p.src
  | .load tid t => p.onLoad tid t p.src
  | .dropoff t => p.onDropoff t p.dest
  | .reset t => p.onReset t p.src

/-- The guard under which each call site in the engine invokes the operation:
enqueueNearbyPassengers only claims WAITING passengers not claimed by another
tricycle; tryLoad only loads passengers ENQUEUED by this tricycle while
Terminal.loadTricycle loads queued (WAITING) passengers; tryOffload only drops
passengers that are onboard; onReset is invoked on load failure and on
timeout. -/
def passengerOpAllowed (p : Passenger) : PassengerOp → Bool
  | .enqueue tid _ =>
      p.status = .waiting ∧ (p.claimedBy = none ∨ p.claimedBy = some tid)
  | .load tid _ =>
      (p.status = .enqueued ∧ p.claimedBy = some tid) ∨ p.status = .waiting
  | .dropoff _ => p.status = .onboard
  | .reset _ => true

/-- Passengers reachable from creation through guarded engine operations. -/
inductive PassengerReachable : Passenger → Prop
  | init (id : Nat) (src dest : Point) (ct dt : Int) :
      PassengerReachable (Passenger.init id src dest ct dt)
  | step (p : Passenger) (op : PassengerOp) :
      PassengerReachable p → passengerOpAllowed p op = true →
      PassengerReachable (applyPassengerOp p op)

/-- Failure modes of a call to the external OSRM routing service: the service
reports that no route exists (util.NoRoute), or the call fails for any other
reason (network errors and the like, spec §5: calls may fail transiently). -/
inductive RouterErr where
  | noRoute
  | transient
deriving DecidableEq, Repr

/-- The external router oracle: either a polyline of intermediate points or a
failure. util notes the destination itself is not included in the result. -/
abbrev Router := Point → Point → Except RouterErr (List Point)

/-- algos.dist_cache: an association from ordered endpoint pairs (the f-string
keys are injective images of the two toTuple lists) to a stored value. A
stored none models Python None, the negative sentinel written on failure. -/
abbrev DistCache := List ((Point × Point) × Option (List Point))

/-- Association lookup in the cache (Python dict access by key). -/
def cacheGet (c : DistCache) (k : Point × Point) :
    Option (Option (List Point)) :=
  (c.find? (fun e => e.1 = k)).map (fun e => e.2)

/-- Python dict assignment: overwrite the entry if the key is present,
otherwise append it. -/
def cacheSet (c : DistCache) (k : Point × Point) (v : Option (List Point)) :
    DistCache :=
  if (c.find? (fun e => e.1 = k)).isSome then
    c.map (fun e => if e.1 = k then (k, v) else e)
  else c ++ [(k, v)]

/-- Truthiness of dist_cache.get(key) in Python: false when the key is
missing, when the stored value is None, and when the stored list is empty. -/
def pyGetTruthy (c : DistCache) (k : Point × Point) : Bool :=
  match cacheGet c k with
  | some (some l) => !l.isEmpty
  | _ => false

/-- algos.get_distance: returns the (possibly cached) road path between two
points together with the updated cache and the number of external router
calls this invocation performed. The cache hit test is the truthiness of
dist_cache.get, exactly as in the source. -/
def get_distance (osrm : Router) (c : DistCache) (p1 p2 : Point) :
    Option (List Point) × DistCache × Nat :=
  if pyGetTruthy c (p1, p2) then ((cacheGet c (p1, p2)).join, c, 0)
  else if pyGetTruthy c (p2, p1) then ((cacheGet c (p2, p1)).join, c, 0)
  else
    match osrm p1 p2 with
    | .ok raw => (some raw, cacheSet c (p1, p2) (some raw), 1)
    | .error _ => (none, cacheSet c (p1, p2) none, 1)

/-- A router oracle for which the queried endpoints are mutually unreachable:
every route request reports NoRoute. -/
def noRouteOracle : Router := fun _ _ => .error .noRoute

/-- All ways to pick one element out of a list, each paired with the remaining
elements in their original relative order, in position order. This is the
selection step of itertools.permutations. -/
def picks : List α → List (α × List α)
  | [] => []
  | x :: xs => (x, xs) :: (picks xs).map (fun yp => (yp.1, x :: yp.2))

/-- Fueled enumeration of permutations in the order produced by
itertools.permutations (lexicographic in input positions). -/
def pyPermsAux : Nat → List α → List (List α)
  | 0, _ => [[]]
  | n + 1, xs =>
      (picks xs).flatMap (fun yp => (pyPermsAux n yp.2).map (yp.1 :: ·))

/-- itertools.permutations: all length-n orderings of the input list, in
enumeration order. -/
def pyPerms (xs : List α) : List (List α) :=
  pyPermsAux xs.length xs

/-- The cost of one leg in sort_path_brute: the raw road path from the current
point to the destination (algos.get_distance, modelled here as a pure lookup
because the selection logic is independent of the cache state threaded through
get_distance, which is analysed separately), extended by the destination and
measured by Path.getDistance; none models an unavailable road path. -/
def legCost (euclid : Point → Point → ℚ)
    (getDist : Point → Point → Option (List Point)) (cur dst : Point) :
    Option ℚ :=
  (getDist cur dst).map (fun raw => pathDistance euclid (raw ++ [dst]))

/-- Total distance of visiting the destinations of an indexed passenger order
starting from a given point; none models the math.inf assigned when a leg has
no road path (the loop breaks, and the remaining legs cannot change inf). -/
def orderTotal (leg : Point → Point → Option ℚ) :
    Point → List (Nat × Passenger) → Option ℚ
  | _, [] => some 0
  | cur, (_, p) :: rest =>
      match leg cur p.dest with
      | none => none
      | some d => (orderTotal leg p.dest rest).map (fun t => d + t)

/-- The comparison total_distance < least_distance where none models
math.inf. -/
def totalLt : Option ℚ → Option ℚ → Bool
  | some a, some b => a < b
  | some _, none => true
  | none, _ => false

/-- The running state of sort_path_brute's enumeration loop: the least total
seen so far (none is math.inf), the best order, and its start index. -/
structure BruteAcc where
  least : Option ℚ
  bestOrder : Option (List Passenger)
  startIndex : Nat
deriving DecidableEq, Repr

/-- order[0][0], the index component of the first pair of a permutation. For
the empty permutation the source would raise IndexError; that case is
unreachable for the non-empty inputs the engine passes and is mapped to 0. -/
def headIndex : List (Nat × Passenger) → Nat
  | (i, _) :: _ => i
  | [] => 0

/-- One iteration of sort_path_brute's loop over permutations. -/
def bruteStep (leg : Point → Point → Option ℚ) (src : Point) (st : BruteAcc)
    (order : List (Nat × Passenger)) : BruteAcc :=
  let total := orderTotal leg src order
  if totalLt total st.least then
    { least := total
      bestOrder := some (order.map Prod.snd)
      startIndex := headIndex order }
  else st

/-- algos.sort_path_brute: enumerate all permutations of the indexed passenger
list, keep the order of strictly least total distance (first wins on ties),
and return the best order together with the index of its first passenger. -/
def sort_path_brute (euclid : Point → Point → ℚ)
    (getDist : Point → Point → Option (List Point)) (src : Point)
    (ps : List Passenger) : Option (List Passenger) × Nat :=
  let wi := (List.range ps.length).zip ps
  let acc := (pyPerms wi).foldl (bruteStep (legCost euclid getDist) src)
    ⟨none, none, 0⟩
  (acc.bestOrder, acc.startIndex)

/-- real.smart_scheduler: run sort_path_brute and return the start index with
the passenger at that index of the original list. -/
def smart_scheduler (euclid : Point → Point → ℚ)
    (getDist : Point → Point → Option (List Point)) (src : Point)
    (ps : List Passenger) : Nat × Option Passenger :=
  let r := sort_path_brute euclid getDist src ps
  (r.2, ps.get? r.2)

/-- The configuration fields consulted by Simulator.__init__'s validation. -/
structure SimulatorConfig where
  totalTrikes : Int
  totalTerminals : Int
  totalPassengers : Int
  roamingTrikeChance : ℚ
  terminalPassengerDistrib : List ℚ
  terminalTrikeDistrib : List ℚ
deriving DecidableEq, Repr

/-- The distinct ImproperConfig errors Simulator.__init__ can raise, in the
order its checks appear. -/
inductive ImproperConfigErr where
  | negativeTerminals
  | negativePassengers
  | negativeTrikes
  | noBehaviour
  | passengerDistribLength
  | trikeDistribLength
deriving DecidableEq, Repr

/-- The validation sequence of real.Simulator.__init__ (lines 132-155). Note
the trike-distribution check compares the list length against totalTrikes,
while its own error message speaks of the number of terminals. -/
def simulatorInitCheck (c : SimulatorConfig) : Except ImproperConfigErr Unit :=
  if c.totalTerminals < 0 then .error .negativeTerminals
  else if c.totalPassengers < 0 then .error .negativePassengers
  else if c.totalTrikes < 0 then .error .negativeTrikes
  else if c.totalTerminals = 0 ∧ c.roamingTrikeChance < 1 ∧
      |c.roamingTrikeChance - 1| > 1 / 1000 then .error .noBehaviour
  else if c.terminalPassengerDistrib.length ≠ 0 ∧
      (c.terminalPassengerDistrib.length : Int) ≠ c.totalTerminals then
    .error .passengerDistribLength
  else if c.terminalTrikeDistrib.length ≠ 0 ∧
      (c.terminalTrikeDistrib.length : Int) ≠ c.totalTrikes then
    .error .trikeDistribLength
  else .ok ()

/-- entities.Tricycle: physical state, capacity bookkeeping, status machine,
metric counters. Onboard passengers and the enqueued set are identifier
references into the SimState registry (the source holds object references). -/
structure Tricycle where
  id : Nat
  capacity : Nat
  speed : ℚ
  active : Bool
  useMeters : Bool
  isRoaming : Bool
  roamPath : Option (List Point)
  passengers : List Nat
  enqueuedPassengers : Finset Nat
  status : TricycleStatus
  totalDistance : ℚ
  totalProductiveDistance : ℚ
  totalDistanceM : ℚ
  totalProductiveDistanceM : ℚ
  waitingTime : ℚ
  toGo : List Point
  path : List Point
  events : List Event
deriving DecidableEq

/-- entities.Tricycle.curPoint: the last traversed point. The path list is
nonempty from construction on; the default is never consulted. -/
def Tricycle.curPoint (t : Tricycle) : Point :=
  (t.path.getLast?).getD ⟨0, 0⟩

/-- entities.Tricycle.hasPassenger. -/
def Tricycle.hasPassenger (t : Tricycle) : Bool :=
  t.passengers.length > 0

/-- entities.Tricycle.validateStatusTransition: the allowed transition
table. -/
def validateStatusTransition (t : Tricycle) (new : TricycleStatus) : Bool :=
  match t.status, new with
  | .idle, .serving => true
  | .idle, .terminal => true
  | .serving, .returningToTerminal => true
  | .serving, .roaming => true
  | .terminal, .serving => true
  | .roaming, .serving => true
  | .returningToTerminal, .terminal => true
  | _, _ => false

/-- entities.Cycle.getNearestPointIndex: index of the point nearest to the
argument, ties by lower index (Python tuple min over (distance, index)). -/
def cycleNearestIndex (euclid : Point → Point → ℚ) (pts : List Point)
    (other : Point) : Nat :=
  let pairs := pts.enum.map (fun ip => (euclid other ip.2, ip.1))
  let best := pairs.foldl
    (fun acc pr =>
      match acc with
      | none => some pr
      | some a => if pr.1 < a.1 ∨ (pr.1 = a.1 ∧ pr.2 < a.2) then some pr else some a)
    none
  (best.map (fun a => a.2)).getD 0

/-- entities.Cycle.getNextPoint: the point after the nearest one, with
wraparound. -/
def cycleNextPoint (euclid : Point → Point → ℚ) (pts : List Point)
    (other : Point) : Point :=
  (pts.get? ((cycleNearestIndex euclid pts other + 1) % pts.length)).getD other

/-- The ambient collaborators of the engine: the transcendental metrics of
util (haversine, get_euclidean_distance), the external router, the
same-location predicate of the driver's map (map.same_loc, missing from the
sources and modelled as an abstract predicate per spec §4.7 step 2b), and the
configured on-board scheduling policy (trikeConfig.scheduler), modelled as a
pure choice of an onboard index. -/
structure Env where
  hav : Point → Point → ℚ
  euclid : Point → Point → ℚ
  osrm : Router
  sameLoc : Point → Point → Bool
  scheduler : Option (Point → List Passenger → Nat)

/-- entities.Tricycle.updatePath: resolve a road path to the destination and
merge it into the to-go queue by priority. NoRoute is caught and reported as
False; any other router failure propagates. -/
inductive PathPriority where
  | replace
  | front
  | append
deriving DecidableEq, Repr

/-- entities.Tricycle.updatePath (see PathPriority). Paths of fewer than three
points are rejected; if the tail of the queue is already the destination the
call succeeds without enqueueing. -/
def updatePath (env : Env) (t : Tricycle) (dst : Point)
    (priority : PathPriority) : Except RouterErr (Bool × Tricycle) :=
  match env.osrm t.curPoint dst with
  | .error .noRoute => .ok (false, t)
  | .error e => .error e
  | .ok raw =>
    let path := raw ++ [dst]
    if path.length < 3 then .ok (false, t)
    else if (t.toGo.getLast?).elim false (fun q => decide (q = dst)) then
      .ok (true, t)
    else
      let newPoints := path.drop 1
      .ok (true,
        { t with
          toGo :=
            match priority with
            | .replace => newPoints
            | .front => newPoints ++ t.toGo
            | .append => t.toGo ++ newPoints })

/-- entities.Tricycle.loadNextCyclePoint: append the next cycle point for a
roaming tricycle; an updatePath failure is only logged, while a transient
router failure propagates carrying the unchanged tricycle. -/
def loadNextCyclePoint (env : Env) (t : Tricycle) :
    Except (RouterErr × Tricycle) Tricycle :=
  match t.roamPath with
  | none => .ok t
  | some pts =>
    match updatePath env t (cycleNextPoint env.euclid pts t.curPoint) .append with
    | .ok r => .ok r.2
    | .error e => .error (e, t)

/-- entities.Tricycle.setStatus: validated transitions only; entering ROAMING
clears the queue and loads the next cycle point before the status is
assigned, so a transient failure there leaves the queue cleared and the old
status in place. Invalid transitions are logged and refused. -/
def setStatus (env : Env) (t : Tricycle) (new : TricycleStatus) :
    Except (RouterErr × Tricycle) Tricycle :=
  if validateStatusTransition t new then
    if new = .roaming then
      let t1 := { t with toGo := [] }
      match t.roamPath with
      | some _ =>
        match loadNextCyclePoint env t1 with
        | .ok t2 => .ok { t2 with status := new }
        | .error e => .error e
      | none => .ok { t1 with status := new }
    else .ok { t with status := new }
  else .ok t

/-- MOVE event coalescing: consecutive MOVE entries are merged by bumping the
count of the last event. -/
def appendMoveEvent (events : List Event) (now : Int) (loc : Point) :
    List Event :=
  match events.getLast? with
  | some e =>
    if e.etype = .move then
      events.dropLast ++ [{ e with data := e.data.map (fun n => n + 1) }]
    else events ++ [⟨.move, now, some 1, loc⟩]
  | none => events ++ [⟨.move, now, some 1, loc⟩]

/-- entities.Tricycle.moveTrike: advance toward the head of the to-go queue,
updating distance metrics and the traversed path; returns the time consumed
(0 when no movement, 1 in meters mode, MS_PER_FRAME otherwise). -/
def moveTrike (env : Env) (t : Tricycle) (now : Int) : Nat × Tricycle :=
  if t.status = .terminal then (0, t)
  else
    match t.toGo with
    | [] => (0, t)
    | nxt :: rest =>
      let cur := t.curPoint
      let distRequired :=
        if t.useMeters then env.hav cur nxt else env.euclid cur nxt
      let distRequiredM := env.hav cur nxt
      let distTravelled :=
        if t.useMeters then min distRequired t.speed
        else min distRequired (t.speed * (MS_PER_FRAME : ℚ))
      let distTravelledM :=
        if t.useMeters then distTravelled
        else if distRequired = 0 then 0
        else distRequiredM * (distTravelled / distRequired)
      if distRequired = 0 then (0, { t with toGo := rest })
      else
        let progress := min (distTravelled / distRequired) 1
        let newPoint := interpolatePoints cur nxt progress
        let t1 :=
          { t with
            path := t.path ++ [newPoint]
            totalDistance := t.totalDistance + distTravelled
            totalDistanceM := t.totalDistanceM + distTravelledM
            totalProductiveDistance :=
              if t.hasPassenger then t.totalProductiveDistance + distTravelled
              else t.totalProductiveDistance
            totalProductiveDistanceM :=
              if t.hasPassenger then t.totalProductiveDistanceM + distTravelledM
              else t.totalProductiveDistanceM
            events := appendMoveEvent t.events now newPoint
            toGo := if progress ≥ 1 then rest else nxt :: rest }
        ((if t.useMeters then 1 else MS_PER_FRAME.toNat), t1)

/-- entities.Tricycle.loadPassenger: capacity-guarded boarding. The final
setStatus(SERVING) call can never enter setStatus's ROAMING branch, so that
call is inlined here as the pure validated transition. -/
def loadPassenger (t : Tricycle) (p : Passenger) (now : Int) :
    Option (Tricycle × Passenger) :=
  if t.passengers.length ≥ t.capacity then none
  else
    let loc := t.curPoint
    let t1 :=
      { t with
        events := t.events ++
          [⟨.load, now, some p.id, loc⟩, ⟨.wait, now, some 100, loc⟩]
        passengers := t.passengers ++ [p.id]
        enqueuedPassengers := t.enqueuedPassengers.erase p.id }
    let t2 :=
      if t1.status ≠ .serving ∧ validateStatusTransition t1 .serving then
        { t1 with status := .serving }
      else t1
    some (t2, p.onLoad t.id now loc)

/-- entities.Tricycle.finishTrip: mark inactive and append the FINISH
event. -/
def finishTrip (t : Tricycle) (now : Int) : Tricycle :=
  { t with
    active := false
    events := t.events ++ [⟨.finish, now, none, t.curPoint⟩] }

/-- entities.Terminal: a fixed location with FIFO queues of parked tricycles
and waiting passengers (identifier references). -/
structure Terminal where
  location : Point
  capacity : Nat
  queue : List Nat
  passengers : List Nat
deriving DecidableEq, Repr

/-- The whole simulated world: the passenger registry (all passengers ever
created), the identifiers currently on the map (entities.Map.passengers), the
tricycle registry (both the driver's list and entities.Map.tricycles), the
terminals, and the driver's clock cells cur_time and last_active. -/
structure SimState where
  passengers : List Passenger
  mapPassengers : List Nat
  trikes : List Tricycle
  terminals : List Terminal
  time : Int
  lastActive : Int
  isRealistic : Bool
deriving DecidableEq

/-- Dereference a passenger identifier in the registry. -/
def SimState.findPassenger (s : SimState) (pid : Nat) : Option Passenger :=
  s.passengers.find? (fun p => p.id = pid)

/-- Write back a mutated passenger object (Python mutates through the shared
reference). -/
def SimState.setPassenger (s : SimState) (p : Passenger) : SimState :=
  { s with passengers := s.passengers.map (fun q => if q.id = p.id then p else q) }

/-- Dereference a tricycle identifier in the registry. -/
def SimState.findTrike (s : SimState) (tid : Nat) : Option Tricycle :=
  s.trikes.find? (fun t => t.id = tid)

/-- Write back a mutated tricycle object. -/
def SimState.setTrike (s : SimState) (t : Tricycle) : SimState :=
  { s with trikes := s.trikes.map (fun u => if u.id = t.id then t else u) }

/-- entities.Map.removePassenger: drop the passenger from the on-map list. -/
def SimState.removeFromMap (s : SimState) (pid : Nat) : SimState :=
  { s with mapPassengers := s.mapPassengers.filter (fun q => q ≠ pid) }

/-- Replace terminal number k. -/
def SimState.setTerminal (s : SimState) (k : Nat) (T : Terminal) : SimState :=
  { s with terminals := s.terminals.set k T }

/-- entities.Map.getNearbyPassengers: on-map passengers whose source is within
the radius of the center, in registration order. -/
def getNearbyPassengers (env : Env) (s : SimState) (center : Point)
    (radius : ℚ) : List Passenger :=
  (s.mapPassengers.filterMap s.findPassenger).filter
    (fun p => decide (env.hav center p.src ≤ radius))

/-- One passenger of entities.Map.checkEnqueuedPassengers: for a claimed
passenger, find the claiming tricycle (first identifier match) and reset the
passenger on timeout. -/
def checkEnqueueStep (now : Int) (s : SimState) (pid : Nat) : SimState :=
  match s.findPassenger pid with
  | none => s
  | some p =>
    match p.claimedBy with
    | none => s
    | some tid =>
      match s.trikes.find? (fun t => t.id = tid) with
      | none => s
      | some t =>
        if p.checkEnqueueTimeout now t.speed then
          s.setPassenger (p.onReset now p.src)
        else s

/-- entities.Map.checkEnqueuedPassengers: walk the on-map passengers and
reset the timed-out claimed ones. The tricycles themselves are never
touched. -/
def checkEnqueuedPassengers (s : SimState) (now : Int) : SimState :=
  s.mapPassengers.foldl (checkEnqueueStep now) s

/-- Failures that can escape an engine operation: a router failure or the
NoMorePassengers control-flow signal of scheduleNextPassenger. Errors carry
the SimState at the raise point, since Python keeps all mutations made before
an exception. -/
inductive SimErr where
  | router (e : RouterErr)
  | noMorePassengers
deriving DecidableEq, Repr

/-- The loop of entities.Tricycle.enqueueNearbyPassengers over the nearby
candidates: stop at remaining capacity, skip non-WAITING or otherwise claimed
passengers, claim the rest and push their pickup points to the front of the
path. -/
def enqueueGo (env : Env) (tid : Nat) (now : Int) (room : Int) :
    List Nat → List Nat → SimState → Except (SimErr × SimState) (List Nat × SimState)
  | [], acc, s => .ok (acc, s)
  | pid :: rest, acc, s =>
    if (acc.length : Int) ≥ room then .ok (acc, s)
    else
      match s.findPassenger pid, s.findTrike tid with
      | some p, some t =>
        if p.status ≠ .waiting then enqueueGo env tid now room rest acc s
        else if p.claimedBy.isSome ∧ p.claimedBy ≠ some tid then
          enqueueGo env tid now room rest acc s
        else
          let p1 := p.onEnqueue tid now p.src
          let t1 :=
            { t with
              enqueuedPassengers := insert pid t.enqueuedPassengers
              events := t.events ++ [⟨.enqueue, now, some pid, p.src⟩] }
          let s1 := (s.setPassenger p1).setTrike t1
          if t1.toGo.any (fun q => q.x = p.src.x ∧ q.y = p.src.y) then
            enqueueGo env tid now room rest (acc ++ [pid]) s1
          else
            match updatePath env t1 p.src .front with
            | .ok r => enqueueGo env tid now room rest (acc ++ [pid]) (s1.setTrike r.2)
            | .error e => .error (.router e, s1)
      | _, _ => enqueueGo env tid now room rest acc s

/-- entities.Tricycle.enqueueNearbyPassengers: claim up to the remaining
capacity (counting both onboard and already-enqueued passengers) among the
WAITING passengers within the detection radius. -/
def enqueueNearbyPassengers (env : Env) (s : SimState) (tid : Nat)
    (now : Int) : Except (SimErr × SimState) (List Nat × SimState) :=
  match s.findTrike tid with
  | none => .ok ([], s)
  | some t0 =>
    let room : Int := (t0.capacity : Int) -
      ((t0.passengers.length : Int) + (t0.enqueuedPassengers.card : Int))
    if room ≤ 0 then .ok ([], s)
    else
      let nearby :=
        (getNearbyPassengers env s t0.curPoint DETECTION_RADIUS_METERS).map
          (fun p => p.id)
      enqueueGo env tid now room nearby [] s

/-- entities.Tricycle.scheduleNextPassenger: raise NoMorePassengers when no
one is onboard; otherwise pick the next passenger (FIFO, or the configured
scheduler) and replace the path with the route to their destination. The
source's except-NoRoute arm is dead code because updatePath already converts
NoRoute into a False return. -/
def scheduleNextPassenger (env : Env) (s : SimState) (tid : Nat) :
    Except (SimErr × SimState) (Option Nat × SimState) :=
  match s.findTrike tid with
  | none => .ok (none, s)
  | some t =>
    if t.passengers = [] then .error (.noMorePassengers, s)
    else
      let onboard := t.passengers.filterMap s.findPassenger
      let idx :=
        match env.scheduler with
        | none => 0
        | some sched => sched t.curPoint onboard
      match onboard.get? idx with
      | none => .ok (none, s)
      | some p =>
        match updatePath env t p.dest .replace with
        | .ok (false, t2) => .ok (none, s.setTrike t2)
        | .ok (true, t2) => .ok (some p.id, s.setTrike t2)
        | .error e => .error (.router e, s)

/-- The loop of entities.Tricycle.tryLoad over the nearby candidates: load
passengers ENQUEUED by this tricycle, removing them from the map and
scheduling their destination (NoMorePassengers is caught there); on a
capacity failure reset the passenger. -/
def tryLoadGo (env : Env) (tid : Nat) (now : Int) :
    List Nat → List Nat → SimState → Except (SimErr × SimState) (List Nat × SimState)
  | [], acc, s => .ok (acc, s)
  | pid :: rest, acc, s =>
    match s.findPassenger pid, s.findTrike tid with
    | some p, some t =>
      if p.status ≠ .enqueued ∨ p.claimedBy ≠ some tid then
        tryLoadGo env tid now rest acc s
      else
        match loadPassenger t p now with
        | some r =>
          let s1 := ((s.setPassenger r.2).setTrike r.1).removeFromMap pid
          match scheduleNextPassenger env s1 tid with
          | .ok r2 => tryLoadGo env tid now rest (acc ++ [pid]) r2.2
          | .error (.noMorePassengers, s2) => tryLoadGo env tid now rest (acc ++ [pid]) s2
          | .error e => .error e
        | none =>
          tryLoadGo env tid now rest acc (s.setPassenger (p.onReset now p.src))
    | _, _ => tryLoadGo env tid now rest acc s

/-- entities.Tricycle.tryLoad: attempt to load the enqueued passengers within
the pickup radius. -/
def tryLoad (env : Env) (s : SimState) (tid : Nat) (now : Int) :
    Except (SimErr × SimState) (List Nat × SimState) :=
  match s.findTrike tid with
  | none => .ok ([], s)
  | some t0 =>
    let nearby :=
      (getNearbyPassengers env s t0.curPoint PICKUP_RADIUS_METERS).map
        (fun p => p.id)
    tryLoadGo env tid now nearby [] s

/-- The dropoff loop of entities.Tricycle.tryOffload over a snapshot of the
onboard list: passengers whose destination is within the dropoff radius of
the position at loop entry are completed and removed. -/
def tryOffloadGo (tid : Nat) (now : Int) (cur : Point)
    (hav : Point → Point → ℚ) :
    List Nat → List Nat → SimState → List Nat × SimState
  | [], acc, s => (acc, s)
  | pid :: rest, acc, s =>
    match s.findPassenger pid, s.findTrike tid with
    | some p, some t =>
      if hav cur p.dest ≤ DROPOFF_RADIUS_METERS then
        let t1 :=
          { t with
            events := t.events ++ [⟨.dropoff, now, some pid, cur⟩]
            passengers := t.passengers.filter (fun q => q ≠ pid) }
        let p1 := p.onDropoff now cur
        tryOffloadGo tid now cur hav rest (acc ++ [pid]) ((s.setPassenger p1).setTrike t1)
      else tryOffloadGo tid now cur hav rest acc s
    | _, _ => tryOffloadGo tid now cur hav rest acc s

/-- entities.Tricycle.tryOffload: drop passengers at reachable destinations;
when the tricycle ends up empty it transitions to ROAMING (roamers, possibly
raising through loadNextCyclePoint) or RETURNING_TO_TERMINAL; a WAIT event is
appended when anything was dropped. -/
def tryOffload (env : Env) (s : SimState) (tid : Nat) (now : Int) :
    Except (SimErr × SimState) (List Nat × SimState) :=
  match s.findTrike tid with
  | none => .ok ([], s)
  | some t0 =>
    let cur := t0.curPoint
    let r := tryOffloadGo tid now cur env.hav t0.passengers [] s
    let dropped := r.1
    let s1 := r.2
    match s1.findTrike tid with
    | none => .ok (dropped, s1)
    | some t1 =>
      let statusStep : Except (SimErr × SimState) SimState :=
        if t1.passengers = [] then
          if t1.isRoaming then
            if t1.status ≠ .roaming then
              match setStatus env t1 .roaming with
              | .ok t2 => .ok (s1.setTrike t2)
              | .error (e, t2) => .error (.router e, s1.setTrike t2)
            else .ok s1
          else if t1.status ≠ .returningToTerminal then
            match setStatus env t1 .returningToTerminal with
            | .ok t2 => .ok (s1.setTrike t2)
            | .error (e, t2) => .error (.router e, s1.setTrike t2)
          else .ok s1
        else .ok s1
      match statusStep with
      | .error e => .error e
      | .ok s2 =>
        if dropped ≠ [] then
          match s2.findTrike tid with
          | some t3 =>
            .ok (dropped, s2.setTrike
              { t3 with events := t3.events ++ [⟨.wait, now, some 100, t3.curPoint⟩] })
          | none => .ok (dropped, s2)
        else .ok (dropped, s2)

/-- entities.Terminal.addTricycle: only IDLE or RETURNING_TO_TERMINAL
tricycles are accepted; the tricycle is queued, deactivated and parked. The
setStatus(TERMINAL) call can never enter the ROAMING branch and is inlined as
the pure validated transition. -/
def addTricycleToTerminal (s : SimState) (k : Nat) (tid : Nat) : SimState :=
  match s.findTrike tid, s.terminals.get? k with
  | some t, some T =>
    if t.status = .idle ∨ t.status = .returningToTerminal then
      let T1 := { T with queue := T.queue ++ [tid] }
      let t1 := { t with active := false }
      let t2 :=
        if validateStatusTransition t1 .terminal then { t1 with status := .terminal }
        else t1
      (s.setTrike t2).setTerminal k T1
    else s
  | _, _ => s

/-- The result record of entities.Terminal.loadTricycle. -/
structure LoadResult where
  tricycle : Option Nat
  passengers : List Nat
  wait : ℚ
deriving DecidableEq, Repr

/-- The loading loop of entities.Terminal.loadTricycle: pop head passengers
into the head tricycle until a capacity failure leaves the passenger at the
head. Returns the mutated tricycle and registry, the loaded passengers, and
the remaining queue. -/
def loadTricycleGo (now : Int) :
    Tricycle → SimState → List Nat → List Nat →
      Tricycle × SimState × List Nat × List Nat
  | t, s, [], acc => (t, s, acc, [])
  | t, s, pid :: rest, acc =>
    match s.findPassenger pid with
    | none => (t, s, acc, pid :: rest)
    | some p =>
      match loadPassenger t p now with
      | some r => loadTricycleGo now r.1 (s.setPassenger r.2) rest (acc ++ [pid])
      | none => (t, s, acc, pid :: rest)

/-- entities.Terminal.loadTricycle: None when either queue is empty; otherwise
a result record holding the head tricycle (or None when nothing was loaded),
the loaded passengers and a zero wait. -/
def loadTricycle (s : SimState) (k : Nat) (now : Int) :
    Option LoadResult × SimState :=
  match s.terminals.get? k with
  | none => (none, s)
  | some T =>
    if T.queue = [] ∨ T.passengers = [] then (none, s)
    else
      match T.queue.head? with
      | none => (none, s)
      | some tid =>
        match s.findTrike tid with
        | none => (none, s)
        | some t =>
          match loadTricycleGo now t s T.passengers [] with
          | (t2, s2, loaded, remaining) =>
            let s3 := (s2.setTrike t2).setTerminal k { T with passengers := remaining }
            (some
              { tricycle := if loaded = [] then none else some tid
                passengers := loaded
                wait := 0 }, s3)

/-- entities.Terminal.popTricycle: pop the head tricycle and mark it
active. -/
def popTricycle (s : SimState) (k : Nat) : Option Nat × SimState :=
  match s.terminals.get? k with
  | none => (none, s)
  | some T =>
    match T.queue.head? with
    | none => (none, s)
    | some tid =>
      let T1 := { T with queue := T.queue.drop 1 }
      match s.findTrike tid with
      | some t => (some tid, (s.setTrike { t with active := true }).setTerminal k T1)
      | none => (some tid, s.setTerminal k T1)

/-- real.Simulator.run.process_passenger: stamp the load time as deathTime
and set the passenger ONBOARD. -/
def process_passenger (s : SimState) (pid : Nat) : SimState :=
  match s.findPassenger pid with
  | some p => s.setPassenger { p with deathTime := s.time, status := .onboard }
  | none => s

/-- Apply process_passenger to every loaded passenger, in order. -/
def processLoaded (s : SimState) (loaded : List Nat) : SimState :=
  loaded.foldl process_passenger s

/-- The driver's bookkeeping after an offload (real.py lines 428-432 and
451-455): stamp each offloaded passenger and refresh last_active. -/
def offloadBookkeeping (s : SimState) (dropped : List Nat) (now : Int) :
    SimState :=
  let s1 := dropped.foldl
    (fun s pid =>
      match s.findPassenger pid with
      | some p => s.setPassenger { p with offloadTime := now }
      | none => s)
    s
  if dropped ≠ [] then { s1 with lastActive := now } else s1

/-- Modelled from the spec: Tricycle.checkPassengers is invoked by the driver
(real.py line 434) but the method is absent from the sources; per spec §4.7
step 1 the per-vehicle loading step runs enqueue_nearby and then try_load,
returning the loaded passengers. -/
def checkPassengers (env : Env) (s : SimState) (tid : Nat) :
    Except (SimErr × SimState) (List Nat × SimState) :=
  match enqueueNearbyPassengers env s tid s.time with
  | .error e => .error e
  | .ok (_, s1) => tryLoad env s1 tid s1.time

/-- Modelled from the spec: Tricycle.processNextPassenger (real.py line 459)
is absent from the sources; per spec §4.7 step 2a the stuck-vehicle fallback
invokes schedule_next_passenger. -/
def processNextPassenger (env : Env) (s : SimState) (tid : Nat) :
    Except (SimErr × SimState) (Option Nat × SimState) :=
  scheduleNextPassenger env s tid

/-- Modelled from the spec: Tricycle.addToGo (real.py line 483) is absent from
the sources; per spec §4.7 step 2b it appends a road path toward the given
location, with NoRoute propagating to the caller (which finishes the trip)
and path validation following update_path (§4.4). -/
def addToGo (env : Env) (t : Tricycle) (dst : Point) :
    Except RouterErr Tricycle :=
  match env.osrm t.curPoint dst with
  | .error e => .error e
  | .ok raw =>
    let path := raw ++ [dst]
    if path.length < 3 then .ok t
    else if (t.toGo.getLast?).elim false (fun q => decide (q = dst)) then .ok t
    else .ok { t with toGo := t.toGo ++ path.drop 1 }

/-- Finish the trip of the given tricycle inside the state (the driver's
trike.finishTrip() call). -/
def finishTrikeInState (s : SimState) (tid : Nat) : SimState :=
  match s.findTrike tid with
  | some t => s.setTrike (finishTrip t s.time)
  | none => s

/-- The nearest-terminal scan of real.py lines 467-479: park on a
same-location terminal (and stop scanning), otherwise remember the nearest
terminal by Euclidean distance. Returns the state, the best candidate, and
whether the tricycle parked. -/
def nearestTerminalScan (env : Env) (tid : Nat) (cur : Point) :
    List Nat → Option (Nat × ℚ) → SimState → SimState × Option (Nat × ℚ) × Bool
  | [], best, s => (s, best, false)
  | k :: rest, best, s =>
    match s.terminals.get? k with
    | none => nearestTerminalScan env tid cur rest best s
    | some T =>
      if env.sameLoc T.location cur then
        (addTricycleToTerminal s k tid, none, true)
      else
        let d := env.euclid cur T.location
        match best with
        | none => nearestTerminalScan env tid cur rest (some (k, d)) s
        | some b =>
          if d < b.2 then nearestTerminalScan env tid cur rest (some (k, d)) s
          else nearestTerminalScan env tid cur rest best s

/-- real.py lines 465-489: a stuck non-roaming tricycle parks at a
same-location terminal, else routes toward the nearest terminal (finishing
the trip on NoRoute), and finishes the trip when there is no terminal at
all. -/
def nearestTerminalStep (env : Env) (s : SimState) (tid : Nat) :
    Except (SimErr × SimState) SimState :=
  match s.findTrike tid with
  | none => .ok s
  | some t =>
    match nearestTerminalScan env tid t.curPoint
        (List.range s.terminals.length) none s with
    | (s1, best, parked) =>
      if parked then .ok s1
      else
        match best with
        | some b =>
          match s1.terminals.get? b.1 with
          | none => .ok s1
          | some T =>
            match addToGo env t T.location with
            | .ok t2 => .ok (s1.setTrike t2)
            | .error .noRoute => .ok (s1.setTrike (finishTrip t s1.time))
            | .error e => .error (.router e, s1)
        | none => .ok (s1.setTrike (finishTrip t s1.time))

/-- Servicing one active tricycle in the movement loop (real.py lines
444-493): move, and if no progress was made re-offload and then either
schedule the next onboard passenger, head for the nearest terminal, or load
the next cycle point. -/
def serviceMoveE (env : Env) (s : SimState) (tid : Nat) :
    Except (SimErr × SimState) SimState :=
  match s.findTrike tid with
  | none => .ok s
  | some t =>
    match moveTrike env t s.time with
    | (timeTaken, t1) =>
      let s1 := s.setTrike t1
      if timeTaken ≠ 0 then .ok s1
      else
        match tryOffload env s1 tid s1.time with
        | .error e => .error e
        | .ok (dropped, s2) =>
          let s3 := offloadBookkeeping s2 dropped s2.time
          match s3.findTrike tid with
          | none => .ok s3
          | some t3 =>
            if t3.hasPassenger then
              match processNextPassenger env s3 tid with
              | .ok r => .ok r.2
              | .error e => .error e
            else if ¬ t3.isRoaming then nearestTerminalStep env s3 tid
            else
              match loadNextCyclePoint env t3 with
              | .ok t4 => .ok (s3.setTrike t4)
              | .error (e, t4) => .error (.router e, s3.setTrike t4)

/-- One tricycle of the movement loop with its exception handler (real.py
lines 494-497): any escaped exception finishes the faulting tricycle's trip
and the loop proceeds. -/
def moveStep (env : Env) (s : SimState) (tid : Nat) : SimState :=
  match serviceMoveE env s tid with
  | .ok s1 => s1
  | .error (_, s1) => finishTrikeInState s1 tid

/-- One tricycle of the offload-then-load loop (real.py lines 423-438):
try_offload with its bookkeeping, then checkPassengers with
process_passenger applied to every loaded passenger. Inactive tricycles are
skipped. -/
def offloadLoadStep (env : Env) (s : SimState) (tid : Nat) :
    Except (SimErr × SimState) SimState :=
  match s.findTrike tid with
  | none => .ok s
  | some t =>
    if ¬ t.active then .ok s
    else
      match tryOffload env s tid s.time with
      | .error e => .error e
      | .ok (dropped, s1) =>
        let s2 := offloadBookkeeping s1 dropped s1.time
        match checkPassengers env s2 tid with
        | .error e => .error e
        | .ok (loaded, s3) => .ok (processLoaded s3 loaded)

/-- The fixed identifier order in which the driver's loops walk the tricycle
list. -/
def trikeIds (s : SimState) : List Nat :=
  s.trikes.map (fun t => t.id)

/-- Fuel bound for one terminal's while-loop: every productive iteration pops
one tricycle, so queue length plus one iterations always suffice. -/
def terminalFuel (s : SimState) (k : Nat) : Nat :=
  match s.terminals.get? k with
  | some T => T.queue.length + 1
  | none => 0

/-- The while-loop of real.py lines 500-506 for one terminal: while both
queues are nonempty, loadTricycle; stop when nothing was loaded, otherwise
process the loaded passengers and pop the tricycle. -/
def terminalLoopGo : Nat → SimState → Nat → SimState
  | 0, s, _ => s
  | fuel + 1, s, k =>
    match s.terminals.get? k with
    | none => s
    | some T =>
      if T.passengers = [] ∨ T.queue = [] then s
      else
        match loadTricycle s k s.time with
        | (none, s1) => s1
        | (some r, s1) =>
          if r.passengers = [] then s1
          else terminalLoopGo fuel ((popTricycle (processLoaded s1 r.passengers) k).2) k

/-- Spec §4.7 step 1 as a standalone phase: for every active vehicle,
try_offload, then enqueue_nearby, then try_load. -/
def offloadLoadPhase (env : Env) (s : SimState) :
    Except (SimErr × SimState) SimState :=
  (trikeIds s).foldlM (offloadLoadStep env) s

/-- Spec §4.7 step 2 as a standalone phase: for every active vehicle, move
with the stuck-vehicle fallback, faults isolated per vehicle. -/
def movePhase (env : Env) (s : SimState) : SimState :=
  (trikeIds s).foldl
    (fun s tid =>
      match s.findTrike tid with
      | some t => if t.active then moveStep env s tid else s
      | none => s)
    s

/-- Spec §4.7 step 3 as a standalone phase: the terminal head-of-line loading
loop over every terminal. -/
def terminalPhase (s : SimState) : SimState :=
  (List.range s.terminals.length).foldl
    (fun s k => terminalLoopGo (terminalFuel s k) s k) s

/-- Spec §4.7 step 5 as a standalone phase: the clock advances by one tick in
realistic mode and by MS_PER_FRAME otherwise. -/
def advanceClock (s : SimState) : SimState :=
  { s with time := s.time + (if s.isRealistic then 1 else MS_PER_FRAME) }

/-- real.Simulator.run.process_frame: one full simulation tick exactly as the
driver executes it: the offload-then-load loop over tricycles, the movement
loop with per-vehicle fault isolation, the terminal loading loops, and the
clock advance. An exception escaping the first loop aborts the frame (that
loop has no handler in the source). -/
def processFrame (env : Env) (s : SimState) :
    Except (SimErr × SimState) SimState :=
  match (trikeIds s).foldlM (offloadLoadStep env) s with
  | .error e => .error e
  | .ok s1 =>
    let s2 :=
      (trikeIds s1).foldl
        (fun s tid =>
          match s.findTrike tid with
          | some t => if t.active then moveStep env s tid else s
          | none => s)
        s1
    let s3 :=
      (List.range s2.terminals.length).foldl
        (fun s k => terminalLoopGo (terminalFuel s k) s k) s2
    .ok { s3 with time := s3.time + (if s3.isRealistic then 1 else MS_PER_FRAME) }

/-- Decidable equality of Except results, used to state concrete evaluations
of fallible operations. -/
instance {ε α : Type} [DecidableEq ε] [DecidableEq α] :
    DecidableEq (Except ε α) := fun x y =>
  match x, y with
  | .ok a, .ok b =>
    match decEq a b with
    | isTrue h => isTrue (h ▸ rfl)
    | isFalse h => isFalse (fun hh => h (Except.ok.inj hh))
  | .error a, .error b =>
    match decEq a b with
    | isTrue h => isTrue (h ▸ rfl)
    | isFalse h => isFalse (fun hh => h (Except.error.inj hh))
  | .ok _, .error _ => isFalse (fun hh => Except.noConfusion hh)
  | .error _, .ok _ => isFalse (fun hh => Except.noConfusion hh)

/-! ## Theorems -/

/-- A passenger that is enqueued, loaded, and dropped off through the engine's
own operations. -/
def c2Passenger : Passenger :=
  applyPassengerOp
    (applyPassengerOp
      (applyPassengerOp (Passenger.init 3 ⟨0, 0⟩ ⟨1, 1⟩ 0 (-1))
        (.enqueue 0 1))
      (.load 0 2))
    (.dropoff 4)

/-- C2, counterexample: a passenger that completed a normal
enqueue-load-dropoff lifecycle still carries its claiming-vehicle identity
(onDropoff never clears claimed_by), so claimed_by being non-null is not
equivalent to the status being ENQUEUED or ONBOARD. -/
theorem c2_completed_passenger_keeps_claim :
    PassengerReachable c2Passenger ∧
      ¬ ((c2Passenger.claimedBy ≠ none) ↔
          (c2Passenger.status = .enqueued ∨ c2Passenger.status = .onboard)) := by
  constructor
  · exact .step _ _ (.step _ _ (.step _ _ (.init 3 ⟨0, 0⟩ ⟨1, 1⟩ 0 (-1))
      (by decide)) (by decide)) (by decide)
  · decide

/-- C2, amended: along every guarded lifecycle, the claiming-vehicle identity
is non-null exactly when the status is ENQUEUED, ONBOARD, or COMPLETED (the
claim is retained through DROP-OFF for attribution), and at most one vehicle
claims the passenger. -/
theorem c2_claim_iff_active_statuses (p : Passenger)
    (h : PassengerReachable p) :
    (p.claimedBy ≠ none ↔
      (p.status = .enqueued ∨ p.status = .onboard ∨ p.status = .completed)) ∧
      ∀ a b : Nat, p.claimedBy = some a → p.claimedBy = some b → a = b := by
  induction h with
  | init id src dest ct dt =>
    refine ⟨?_, ?_⟩
    · simp [Passenger.init]
    · intro a b ha hb
      simp [Passenger.init] at ha
  | step p op hp hall ih =>
    cases op with
    | enqueue tid t =>
      refine ⟨?_, ?_⟩
      · simp [applyPassengerOp, Passenger.onEnqueue]
      · intro a b ha hb
        simp [applyPassengerOp, Passenger.onEnqueue] at ha hb
        omega
    | load tid t =>
      refine ⟨?_, ?_⟩
      · simp [applyPassengerOp, Passenger.onLoad]
      · intro a b ha hb
        simp [applyPassengerOp, Passenger.onLoad] at ha hb
        omega
    | dropoff t =>
      have hob : p.status = .onboard := by
        simpa [passengerOpAllowed] using hall
      have hcl : p.claimedBy ≠ none := ih.1.mpr (Or.inr (Or.inl hob))
      refine ⟨?_, ?_⟩
      · simp [applyPassengerOp, Passenger.onDropoff, hcl]
      · intro a b ha hb
        simp only [applyPassengerOp, Passenger.onDropoff] at ha hb
        exact ih.2 a b ha hb
    | reset t =>
      refine ⟨?_, ?_⟩
      · simp [applyPassengerOp, Passenger.onReset]
      · intro a b ha hb
        simp [applyPassengerOp, Passenger.onReset] at ha

/-- C2, witness: the amended invariant evaluated on a concrete reachable
passenger. -/
theorem c2_claim_iff_active_statuses_witness :
    (c2Passenger.claimedBy ≠ none ↔
      (c2Passenger.status = .enqueued ∨ c2Passenger.status = .onboard ∨
        c2Passenger.status = .completed)) ∧
      ∀ a b : Nat, c2Passenger.claimedBy = some a →
        c2Passenger.claimedBy = some b → a = b :=
  c2_claim_iff_active_statuses c2Passenger
    (.step _ _ (.step _ _ (.step _ _ (.init 3 ⟨0, 0⟩ ⟨1, 1⟩ 0 (-1))
      (by decide)) (by decide)) (by decide))

/-- Writing back a passenger object with a different identifier leaves a
registry lookup unchanged. -/
theorem find_id_map_update (l : List Passenger) (q : Passenger) (pid : Nat)
    (h : q.id ≠ pid) :
    (l.map (fun r => if r.id = q.id then q else r)).find?
        (fun r => r.id = pid) =
      l.find? (fun r => r.id = pid) := by
  induction l with
  | nil => rfl
  | cons r rest ih =>
    simp only [List.map_cons]
    by_cases hrq : r.id = q.id
    · rw [if_pos hrq]
      rw [List.find?_cons_of_neg _ (by simp [h]),
        List.find?_cons_of_neg _ (by simp [hrq ▸ h])]
      exact ih
    · rw [if_neg hrq]
      by_cases hrp : r.id = pid
      · rw [List.find?_cons_of_pos _ (by simp [hrp]),
          List.find?_cons_of_pos _ (by simp [hrp])]
      · rw [List.find?_cons_of_neg _ (by simp [hrp]),
          List.find?_cons_of_neg _ (by simp [hrp])]
        exact ih

/-- Writing back a passenger object found in the registry makes lookups of its
identifier return the written object. -/
theorem find_id_map_update_self (l : List Passenger) (q p : Passenger)
    (pid : Nat) (hq : q.id = pid) (h : l.find? (fun r => r.id = pid) = some p) :
    (l.map (fun r => if r.id = q.id then q else r)).find?
        (fun r => r.id = pid) = some q := by
  induction l with
  | nil => simp [List.find?] at h
  | cons r rest ih =>
    simp only [List.map_cons]
    by_cases hrp : r.id = pid
    · rw [if_pos (hrp.trans hq.symm)]
      exact List.find?_cons_of_pos _ (by simp [hq])
    · have hrq : ¬ r.id = q.id := fun hh => hrp (hh.trans hq)
      rw [if_neg hrq, List.find?_cons_of_neg _ (by simp [hrp])]
      rw [List.find?_cons_of_neg _ (by simp [hrp])] at h
      exact ih h

/-- SimState form of find_id_map_update. -/
theorem findPassenger_setPassenger_ne (s : SimState) (q : Passenger)
    (pid : Nat) (h : q.id ≠ pid) :
    (s.setPassenger q).findPassenger pid = s.findPassenger pid :=
  find_id_map_update s.passengers q pid h

/-- SimState form of find_id_map_update_self. -/
theorem findPassenger_setPassenger_self (s : SimState) (q p : Passenger)
    (pid : Nat) (hq : q.id = pid) (h : s.findPassenger pid = some p) :
    (s.setPassenger q).findPassenger pid = some q :=
  find_id_map_update_self s.passengers q p pid hq h

/-- A registry lookup determines the identifier field. -/
theorem findPassenger_id (s : SimState) (pid : Nat) (p : Passenger)
    (h : s.findPassenger pid = some p) : p.id = pid := by
  have := List.find?_some h
  simpa using this

/-- checkEnqueueStep only rewrites passenger entries: the tricycles, the
on-map list, and the clock are untouched. -/
theorem checkEnqueueStep_frame (now : Int) (s : SimState) (pid : Nat) :
    (checkEnqueueStep now s pid).trikes = s.trikes ∧
      (checkEnqueueStep now s pid).mapPassengers = s.mapPassengers ∧
      (checkEnqueueStep now s pid).terminals = s.terminals := by
  unfold checkEnqueueStep
  split
  · exact ⟨rfl, rfl, rfl⟩
  · split
    · exact ⟨rfl, rfl, rfl⟩
    · split
      · exact ⟨rfl, rfl, rfl⟩
      · split
        · exact ⟨rfl, rfl, rfl⟩
        · exact ⟨rfl, rfl, rfl⟩

/-- A passenger whose claim is already cleared is never touched again by the
timeout fold. -/
theorem checkEnqueueFold_stable (now : Int) (pid : Nat) (q : Passenger)
    (hq : q.claimedBy = none) :
    ∀ (ids : List Nat) (s : SimState), s.findPassenger pid = some q →
      ((ids.foldl (checkEnqueueStep now) s).findPassenger pid = some q) := by
  intro ids
  induction ids with
  | nil => intro s h; exact h
  | cons i rest ih =>
    intro s h
    simp only [List.foldl_cons]
    apply ih
    unfold checkEnqueueStep
    split
    · exact h
    next p hfp =>
      split
      · exact h
      next tid hcl =>
        split
        · exact h
        next t hft =>
          split
          next htm =>
            by_cases hip : p.id = pid
            · have hpq : p = q := by
                rw [findPassenger_id s i p hfp] at hip
                subst hip
                rw [h] at hfp
                exact (Option.some.inj hfp).symm
              rw [hpq, hq] at hcl
              cases hcl
            · rw [findPassenger_setPassenger_ne s _ pid
                (by simpa [Passenger.onReset] using hip)]
              exact h
          next htm => exact h

/-- The timeout fold resets a timed-out claimed passenger that appears in the
processed identifier list. -/
theorem checkEnqueueFold_resets (now : Int) (pid tid : Nat) (p : Passenger)
    (hpid : p.id = pid) (hclaim : p.claimedBy = some tid) :
    ∀ (ids : List Nat) (s : SimState) (t : Tricycle), pid ∈ ids →
      s.findPassenger pid = some p →
      s.trikes.find? (fun u => u.id = tid) = some t →
      p.checkEnqueueTimeout now t.speed = true →
      ((ids.foldl (checkEnqueueStep now) s).findPassenger pid =
        some (p.onReset now p.src)) := by
  intro ids
  induction ids with
  | nil => intro s t hmem; cases hmem
  | cons i rest ih =>
    intro s t hmem hfp hft htm
    simp only [List.foldl_cons]
    by_cases hip : i = pid
    · subst hip
      have hstep : checkEnqueueStep now s i = s.setPassenger (p.onReset now p.src) := by
        unfold checkEnqueueStep
        rw [hfp]
        simp only [hclaim, hft, htm, if_true]
      rw [hstep]
      apply checkEnqueueFold_stable now i (p.onReset now p.src)
        (by simp [Passenger.onReset])
      exact findPassenger_setPassenger_self _ _ p i (by simp [Passenger.onReset, hpid]) hfp
    · have hmem2 : pid ∈ rest := by
        cases hmem with
        | head => exact absurd rfl hip
        | tail _ h => exact h
      have hframe := checkEnqueueStep_frame now s i
      apply ih (checkEnqueueStep now s i) t hmem2
      · unfold checkEnqueueStep
        split
        · exact hfp
        next p2 hfp2 =>
          split
          · exact hfp
          next tid2 hcl2 =>
            split
            · exact hfp
            next t2 hft2 =>
              split
              next htm2 =>
                have hp2id : p2.id = i := findPassenger_id s i p2 hfp2
                rw [findPassenger_setPassenger_ne s _ pid
                  (by simp only [Passenger.onReset]; rw [hp2id]; exact hip)]
                exact hfp
              next htm2 => exact hfp
      · rw [hframe.1]; exact hft
      · exact htm

/-- The timeout fold never touches the tricycle registry. -/
theorem checkEnqueueFold_trikes (now : Int) :
    ∀ (ids : List Nat) (s : SimState),
      (ids.foldl (checkEnqueueStep now) s).trikes = s.trikes := by
  intro ids
  induction ids with
  | nil => intro s; rfl
  | cons i rest ih =>
    intro s
    simp only [List.foldl_cons]
    rw [ih, (checkEnqueueStep_frame now s i).1]

/-- C3, amended: when the timeout check runs at time now for an ENQUEUED
passenger whose elapsed ticks exceed max(60, 2·detection/(speed·frame)), the
passenger is reset to WAITING with a RESET event and its claim is cleared,
but the tricycle registry is completely unchanged, so the claiming vehicle's
enqueued set still contains the passenger. -/
theorem c3_timeout_resets_passenger (s : SimState) (now : Int) (pid tid : Nat)
    (p : Passenger) (t : Tricycle) (hmem : pid ∈ s.mapPassengers)
    (hfp : s.findPassenger pid = some p) (hclaim : p.claimedBy = some tid)
    (hft : s.trikes.find? (fun u => u.id = tid) = some t)
    (hstatus : p.status = .enqueued) (henq : p.enqueueTime ≠ -1)
    (helapsed : ((now - p.enqueueTime : Int) : ℚ) >
      max (DETECTION_RADIUS_METERS * 2 / (t.speed * (MS_PER_FRAME : ℚ))) 60) :
    (checkEnqueuedPassengers s now).findPassenger pid =
        some (p.onReset now p.src) ∧
      (p.onReset now p.src).status = .waiting ∧
      (p.onReset now p.src).claimedBy = none ∧
      (p.onReset now p.src).events.getLast? =
        some ⟨.reset, now, some tid, p.src⟩ ∧
      (checkEnqueuedPassengers s now).trikes = s.trikes := by
  have htm : p.checkEnqueueTimeout now t.speed = true := by
    have h2 := helapsed
    rw [gt_iff_lt, max_lt_iff] at h2
    push_cast at h2
    simp only [Passenger.checkEnqueueTimeout, hstatus, henq, decide_eq_true_eq]
    push_cast
    simp [max_lt_iff, h2.1, h2.2, henq]
  refine ⟨?_, by simp [Passenger.onReset], by simp [Passenger.onReset],
    by simp [Passenger.onReset, hclaim], ?_⟩
  · exact checkEnqueueFold_resets now pid tid p (findPassenger_id s pid p hfp)
      hclaim s.mapPassengers s t hmem hfp hft htm
  · exact checkEnqueueFold_trikes now s.mapPassengers s

/-- A passenger enqueued at tick 0 and claimed by tricycle 0. -/
def c3Passenger : Passenger :=
  (Passenger.init 7 ⟨0, 0⟩ ⟨1, 1⟩ 0 (-1)).onEnqueue 0 0 ⟨0, 0⟩

/-- The tricycle that claimed c3Passenger: speed 6 m/tick, the passenger
recorded in its enqueued set. -/
def c3Trike : Tricycle :=
  { id := 0
    capacity := 1
    speed := 6
    active := true
    useMeters := true
    isRoaming := false
    roamPath := none
    passengers := []
    enqueuedPassengers := {7}
    status := .serving
    totalDistance := 0
    totalProductiveDistance := 0
    totalDistanceM := 0
    totalProductiveDistanceM := 0
    waitingTime := 0
    toGo := []
    path := [⟨0, 0⟩]
    events := [] }

/-- A world holding exactly that claimed passenger and its claiming
tricycle, at tick 61 (one past the 60-tick timeout floor). -/
def c3State : SimState :=
  { passengers := [c3Passenger]
    mapPassengers := [7]
    trikes := [c3Trike]
    terminals := []
    time := 61
    lastActive := -1
    isRealistic := true }

/-- C3, counterexample: at tick 61 the elapsed ticks exceed the timeout, the
passenger is reset to WAITING with a RESET event and a cleared claim, but the
claiming tricycle's enqueued set still contains the passenger, contradicting
the claim that the set no longer contains it. -/
theorem c3_timeout_leaves_enqueued_set :
    c3Passenger.status = .enqueued ∧
      c3Passenger.claimedBy = some 0 ∧
      ((61 - c3Passenger.enqueueTime : Int) : ℚ) >
        max (DETECTION_RADIUS_METERS * 2 / (c3Trike.speed * (MS_PER_FRAME : ℚ)))
          60 ∧
      ((checkEnqueuedPassengers c3State 61).findPassenger 7).map
          Passenger.status = some .waiting ∧
      ((checkEnqueuedPassengers c3State 61).findPassenger 7).map
          Passenger.claimedBy = some none ∧
      ((checkEnqueuedPassengers c3State 61).findPassenger 7).map
          (fun p => p.events.getLast?.map Event.etype) =
        some (some .reset) ∧
      ((checkEnqueuedPassengers c3State 61).findTrike 0).map
          (fun t => decide (7 ∈ t.enqueuedPassengers)) = some true := by
  have hineq : ((61 - c3Passenger.enqueueTime : Int) : ℚ) >
      max (DETECTION_RADIUS_METERS * 2 / (c3Trike.speed * (MS_PER_FRAME : ℚ)))
        60 := by
    norm_num [c3Passenger, c3Trike, Passenger.onEnqueue, Passenger.init,
      DETECTION_RADIUS_METERS, MS_PER_FRAME]
  have hreset := checkEnqueueFold_resets 61 7 0 c3Passenger (by decide)
    (by decide) [7] c3State c3Trike (by decide) (by decide) (by decide)
    (by
      have h2 := hineq
      rw [gt_iff_lt, max_lt_iff] at h2
      push_cast at h2
      simp only [Passenger.checkEnqueueTimeout, decide_eq_true_eq]
      push_cast
      exact ⟨by decide, by decide, max_lt h2.1 h2.2⟩)
  have htr := checkEnqueueFold_trikes 61 [7] c3State
  have hfind : (checkEnqueuedPassengers c3State 61).findTrike 0 =
      c3State.findTrike 0 := by
    unfold SimState.findTrike
    rw [show (checkEnqueuedPassengers c3State 61).trikes = c3State.trikes from htr]
  refine ⟨by decide, by decide, hineq, ?_, ?_, ?_, ?_⟩
  · rw [show checkEnqueuedPassengers c3State 61 = [7].foldl (checkEnqueueStep 61) c3State from rfl, hreset]
    decide
  · rw [show checkEnqueuedPassengers c3State 61 = [7].foldl (checkEnqueueStep 61) c3State from rfl, hreset]
    decide
  · rw [show checkEnqueuedPassengers c3State 61 = [7].foldl (checkEnqueueStep 61) c3State from rfl, hreset]
    decide
  · rw [hfind]
    decide

/-- C3, witness: the amended timeout behavior evaluated on the concrete
world c3State. -/
theorem c3_timeout_resets_passenger_witness :
    (checkEnqueuedPassengers c3State 61).findPassenger 7 =
        some (c3Passenger.onReset 61 c3Passenger.src) ∧
      (c3Passenger.onReset 61 c3Passenger.src).status = .waiting ∧
      (c3Passenger.onReset 61 c3Passenger.src).claimedBy = none ∧
      (c3Passenger.onReset 61 c3Passenger.src).events.getLast? =
        some ⟨.reset, 61, some 0, c3Passenger.src⟩ ∧
      (checkEnqueuedPassengers c3State 61).trikes = c3State.trikes :=
  c3_timeout_resets_passenger c3State 61 7 0 c3Passenger c3Trike
    (by decide) (by decide) (by decide) (by decide) (by decide) (by decide)
    (by
      norm_num [c3Passenger, c3Trike, Passenger.onEnqueue, Passenger.init,
        DETECTION_RADIUS_METERS, MS_PER_FRAME])

/-- The endpoints of the C4 route queries. -/
def c4A : Point := ⟨0, 0⟩

/-- The endpoints of the C4 route queries. -/
def c4B : Point := ⟨1, 1⟩

/-- C4: after a first no-route call stores the None sentinel under the
forward key, a repeat call in either direction still performs one more
external router call (the cache hit test uses Python truthiness of the
stored value, and None is falsy), contradicting the claim that no additional
router call happens after the first and that repeated infeasible queries hit
the negative cache. -/
theorem c4_negative_cache_reconsults_router :
    (get_distance noRouteOracle [] c4A c4B).1 = none ∧
      (get_distance noRouteOracle [] c4A c4B).2.2 = 1 ∧
      cacheGet (get_distance noRouteOracle [] c4A c4B).2.1 (c4A, c4B) =
        some none ∧
      (get_distance noRouteOracle
          (get_distance noRouteOracle [] c4A c4B).2.1 c4A c4B).1 = none ∧
      (get_distance noRouteOracle
          (get_distance noRouteOracle [] c4A c4B).2.1 c4A c4B).2.2 = 1 ∧
      (get_distance noRouteOracle
          (get_distance noRouteOracle [] c4A c4B).2.1 c4B c4A).2.2 = 1 := by
  decide

/-- A configuration whose vehicle distribution has as many entries as there
are vehicles but not as many as there are terminals. -/
def c7Config : SimulatorConfig :=
  { totalTrikes := 2
    totalTerminals := 1
    totalPassengers := 0
    roamingTrikeChance := 0
    terminalPassengerDistrib := []
    terminalTrikeDistrib := [1, 1] }

/-- A configuration whose vehicle distribution matches the number of
terminals (but not the number of vehicles). -/
def c7Config2 : SimulatorConfig :=
  { totalTrikes := 2
    totalTerminals := 3
    totalPassengers := 0
    roamingTrikeChance := 0
    terminalPassengerDistrib := []
    terminalTrikeDistrib := [1, 1, 1] }

/-- C7: the vehicle-distribution check of Simulator.__init__ compares the
list length against totalTrikes, not against the count of terminals its own
error message speaks of: a two-entry distribution with one terminal and two
vehicles passes construction (the claim demands ImproperConfig), while a
three-entry distribution matching three terminals is rejected. -/
theorem c7_trike_distrib_checked_against_trikes :
    c7Config.terminalTrikeDistrib ≠ [] ∧
      (c7Config.terminalTrikeDistrib.length : Int) ≠ c7Config.totalTerminals ∧
      simulatorInitCheck c7Config = .ok () ∧
      c7Config2.terminalTrikeDistrib ≠ [] ∧
      (c7Config2.terminalTrikeDistrib.length : Int) = c7Config2.totalTerminals ∧
      simulatorInitCheck c7Config2 = .error .trikeDistribLength := by
  decide

/-- A capacity-1 tricycle parked at a terminal that still holds a stale
entry in its enqueued set (left behind by a reset, which never updates the
claiming vehicle's set). -/
def c1Trike : Tricycle :=
  { id := 0
    capacity := 1
    speed := 6
    active := false
    useMeters := true
    isRoaming := false
    roamPath := none
    passengers := []
    enqueuedPassengers := {7}
    status := .terminal
    totalDistance := 0
    totalProductiveDistance := 0
    totalDistanceM := 0
    totalProductiveDistanceM := 0
    waitingTime := 0
    toGo := []
    path := [⟨0, 0⟩]
    events := [] }

/-- The terminal where c1Trike is queued, with one waiting passenger. -/
def c1Terminal : Terminal :=
  { location := ⟨0, 0⟩
    capacity := 20
    queue := [0]
    passengers := [9] }

/-- A world in which the capacity-sum invariant still holds before terminal
loading runs. -/
def c1State : SimState :=
  { passengers := [Passenger.init 7 ⟨0, 0⟩ ⟨1, 1⟩ 0 (-1),
      Passenger.init 9 ⟨0, 0⟩ ⟨2, 2⟩ 0 (-1)]
    mapPassengers := []
    trikes := [c1Trike]
    terminals := [c1Terminal]
    time := 5
    lastActive := -1
    isRealistic := true }

/-- C1: the capacity-sum invariant holds before terminal loading, but
Terminal.loadTricycle checks only the onboard count (loadPassenger), so it
fills the head tricycle to its full capacity while a stale enqueued entry is
still recorded, leaving onboard + enqueued = capacity + 1 at the next tick
boundary. The onboard-only bound survives. -/
theorem c1_terminal_loading_breaks_capacity_sum :
    (∀ t ∈ c1State.trikes,
      t.passengers.length ≤ t.capacity ∧
        t.passengers.length + t.enqueuedPassengers.card ≤ t.capacity) ∧
      ((loadTricycle c1State 0 5).2.findTrike 0).map
          (fun t => decide
            (t.capacity < t.passengers.length + t.enqueuedPassengers.card)) =
        some true ∧
      ((loadTricycle c1State 0 5).2.findTrike 0).map
          (fun t => decide (t.passengers.length ≤ t.capacity)) = some true := by
  decide

/-- Writing back a tricycle object with a different identifier leaves a
registry lookup unchanged. -/
theorem find_trike_map_update (l : List Tricycle) (q : Tricycle) (tid : Nat)
    (h : q.id ≠ tid) :
    (l.map (fun r => if r.id = q.id then q else r)).find?
        (fun r => r.id = tid) =
      l.find? (fun r => r.id = tid) := by
  induction l with
  | nil => rfl
  | cons r rest ih =>
    simp only [List.map_cons]
    by_cases hrq : r.id = q.id
    · rw [if_pos hrq]
      rw [List.find?_cons_of_neg _ (by simp [h]),
        List.find?_cons_of_neg _ (by simp [hrq ▸ h])]
      exact ih
    · rw [if_neg hrq]
      by_cases hrp : r.id = tid
      · rw [List.find?_cons_of_pos _ (by simp [hrp]),
          List.find?_cons_of_pos _ (by simp [hrp])]
      · rw [List.find?_cons_of_neg _ (by simp [hrp]),
          List.find?_cons_of_neg _ (by simp [hrp])]
        exact ih

/-- Writing back a tricycle object found in the registry makes lookups of its
identifier return the written object. -/
theorem find_trike_map_update_self (l : List Tricycle) (q p : Tricycle)
    (tid : Nat) (hq : q.id = tid)
    (h : l.find? (fun r => r.id = tid) = some p) :
    (l.map (fun r => if r.id = q.id then q else r)).find?
        (fun r => r.id = tid) = some q := by
  induction l with
  | nil => simp [List.find?] at h
  | cons r rest ih =>
    simp only [List.map_cons]
    by_cases hrp : r.id = tid
    · rw [if_pos (hrp.trans hq.symm)]
      exact List.find?_cons_of_pos _ (by simp [hq])
    · have hrq : ¬ r.id = q.id := fun hh => hrp (hh.trans hq)
      rw [if_neg hrq, List.find?_cons_of_neg _ (by simp [hrp])]
      rw [List.find?_cons_of_neg _ (by simp [hrp])] at h
      exact ih h

/-- SimState form of find_trike_map_update. -/
theorem findTrike_setTrike_ne (s : SimState) (q : Tricycle) (tid : Nat)
    (h : q.id ≠ tid) : (s.setTrike q).findTrike tid = s.findTrike tid :=
  find_trike_map_update s.trikes q tid h

/-- SimState form of find_trike_map_update_self. -/
theorem findTrike_setTrike_self (s : SimState) (q p : Tricycle) (tid : Nat)
    (hq : q.id = tid) (h : s.findTrike tid = some p) :
    (s.setTrike q).findTrike tid = some q :=
  find_trike_map_update_self s.trikes q p tid hq h

/-- A tricycle lookup determines the identifier field. -/
theorem findTrike_id (s : SimState) (tid : Nat) (t : Tricycle)
    (h : s.findTrike tid = some t) : t.id = tid := by
  have := List.find?_some h
  simpa using this

/-- Writing back a passenger preserves solvability of lookups. -/
theorem findPassenger_setPassenger_isSome (s : SimState) (q : Passenger)
    (pid : Nat) (h : (s.findPassenger pid).isSome) :
    ((s.setPassenger q).findPassenger pid).isSome := by
  by_cases hq : q.id = pid
  · obtain ⟨p, hp⟩ := Option.isSome_iff_exists.mp h
    rw [findPassenger_setPassenger_self s q p pid hq hp]
    rfl
  · rw [findPassenger_setPassenger_ne s q pid hq]
    exact h

/-- Passenger lookups only read the passenger registry. -/
theorem findPassenger_setTrike (s : SimState) (q : Tricycle) (pid : Nat) :
    (s.setTrike q).findPassenger pid = s.findPassenger pid := rfl

/-- Tricycle lookups only read the tricycle registry. -/
theorem findTrike_setPassenger (s : SimState) (q : Passenger) (tid : Nat) :
    (s.setPassenger q).findTrike tid = s.findTrike tid := rfl

/-- loadPassenger succeeds exactly below capacity, appends the passenger to
the onboard list, and touches neither identifier nor capacity. -/
theorem loadPassenger_spec (t : Tricycle) (p : Passenger) (now : Int) :
    (t.capacity ≤ t.passengers.length → loadPassenger t p now = none) ∧
      (t.passengers.length < t.capacity →
        ∃ t2 p2, loadPassenger t p now = some (t2, p2) ∧
          t2.passengers = t.passengers ++ [p.id] ∧
          t2.id = t.id ∧ t2.capacity = t.capacity ∧ p2.id = p.id) := by
  constructor
  · intro h
    unfold loadPassenger
    rw [if_pos (by omega)]
  · intro h
    unfold loadPassenger
    rw [if_neg (by omega)]
    refine ⟨_, _, rfl, ?_, ?_, ?_, ?_⟩
    · by_cases hs : ({ t with
          events := t.events ++
            [⟨.load, now, some p.id, t.curPoint⟩, ⟨.wait, now, some 100, t.curPoint⟩]
          passengers := t.passengers ++ [p.id]
          enqueuedPassengers := t.enqueuedPassengers.erase p.id : Tricycle
          }.status ≠ .serving ∧
          validateStatusTransition { t with
            events := t.events ++
              [⟨.load, now, some p.id, t.curPoint⟩, ⟨.wait, now, some 100, t.curPoint⟩]
            passengers := t.passengers ++ [p.id]
            enqueuedPassengers := t.enqueuedPassengers.erase p.id } .serving) <;>
      simp [hs]
    · by_cases hs : ({ t with
          events := t.events ++
            [⟨.load, now, some p.id, t.curPoint⟩, ⟨.wait, now, some 100, t.curPoint⟩]
          passengers := t.passengers ++ [p.id]
          enqueuedPassengers := t.enqueuedPassengers.erase p.id : Tricycle
          }.status ≠ .serving ∧
          validateStatusTransition { t with
            events := t.events ++
              [⟨.load, now, some p.id, t.curPoint⟩, ⟨.wait, now, some 100, t.curPoint⟩]
            passengers := t.passengers ++ [p.id]
            enqueuedPassengers := t.enqueuedPassengers.erase p.id } .serving) <;>
      simp [hs]
    · by_cases hs : ({ t with
          events := t.events ++
            [⟨.load, now, some p.id, t.curPoint⟩, ⟨.wait, now, some 100, t.curPoint⟩]
          passengers := t.passengers ++ [p.id]
          enqueuedPassengers := t.enqueuedPassengers.erase p.id : Tricycle
          }.status ≠ .serving ∧
          validateStatusTransition { t with
            events := t.events ++
              [⟨.load, now, some p.id, t.curPoint⟩, ⟨.wait, now, some 100, t.curPoint⟩]
            passengers := t.passengers ++ [p.id]
            enqueuedPassengers := t.enqueuedPassengers.erase p.id } .serving) <;>
      simp [hs]
    · simp [Passenger.onLoad]

/-- The loading loop of Terminal.loadTricycle loads exactly the head
min(capacity - onboard, queue length) passengers, appends them to the
tricycle, and leaves the rest queued; the registry's terminals and tricycles
are untouched by the loop itself. -/
theorem loadTricycleGo_spec (now : Int) :
    ∀ (pids : List Nat) (t : Tricycle) (s : SimState) (acc : List Nat),
      (∀ pid ∈ pids, (s.findPassenger pid).isSome) →
      (loadTricycleGo now t s pids acc).2.2.1 =
          acc ++ pids.take (min (t.capacity - t.passengers.length) pids.length) ∧
        (loadTricycleGo now t s pids acc).2.2.2 =
          pids.drop (min (t.capacity - t.passengers.length) pids.length) ∧
        (loadTricycleGo now t s pids acc).1.passengers =
          t.passengers ++
            pids.take (min (t.capacity - t.passengers.length) pids.length) ∧
        (loadTricycleGo now t s pids acc).1.id = t.id ∧
        (loadTricycleGo now t s pids acc).2.1.terminals = s.terminals ∧
        (loadTricycleGo now t s pids acc).2.1.trikes = s.trikes := by
  intro pids
  induction pids with
  | nil =>
    intro t s acc h
    simp [loadTricycleGo]
  | cons pid rest ih =>
    intro t s acc h
    have hsome : (s.findPassenger pid).isSome := h pid (by simp)
    obtain ⟨p, hp⟩ := Option.isSome_iff_exists.mp hsome
    have hpid : p.id = pid := findPassenger_id s pid p hp
    by_cases hcap : t.passengers.length < t.capacity
    · obtain ⟨t2, p2, hload, ht2p, ht2id, ht2cap, hp2id⟩ :=
        (loadPassenger_spec t p now).2 hcap
      have hrec := ih t2 (s.setPassenger p2) (acc ++ [pid])
        (fun q hq => findPassenger_setPassenger_isSome s p2 q (h q (by simp [hq])))
      have hlen : t2.passengers.length = t.passengers.length + 1 := by
        rw [ht2p]
        simp
      have hn : min (t.capacity - t.passengers.length) (pid :: rest).length =
          min (t2.capacity - t2.passengers.length) rest.length + 1 := by
        rw [ht2cap, hlen]
        simp only [List.length_cons]
        omega
      obtain ⟨h1, h2, h3, h4, h5, h6⟩ := hrec
      simp only [loadTricycleGo, hp, hload]
      rw [hn]
      refine ⟨?_, ?_, ?_, ?_, ?_, ?_⟩
      · rw [h1, List.take_succ_cons, List.append_assoc]
        rfl
      · rw [h2, List.drop_succ_cons]
      · rw [h3, ht2p, hpid, List.take_succ_cons, List.append_assoc]
        rfl
      · rw [h4, ht2id]
      · rw [h5]
        rfl
      · rw [h6]
        rfl
    · have hnone := (loadPassenger_spec t p now).1 (by omega)
      have hz : t.capacity - t.passengers.length = 0 := by omega
      simp only [loadTricycleGo, hp, hnone, hz]
      simp

/-- C8, amended: with both queues nonempty, loadTricycle returns a result
record (not None): zero wait, the loadable prefix of the passenger queue as
the loaded list, the head tricycle exactly when something was loaded (None in
the record otherwise), the loaded passengers appended to the head tricycle,
and the rest left at the head of the terminal queue. loadTricycle returns
None only when one of the two queues is empty. -/
theorem c8_load_head_characterization (s : SimState) (k : Nat) (now : Int)
    (T : Terminal) (tid : Nat) (t : Tricycle)
    (hT : s.terminals.get? k = some T) (hq : T.queue.head? = some tid)
    (hpne : T.passengers ≠ []) (ht : s.findTrike tid = some t)
    (hres : ∀ pid ∈ T.passengers, (s.findPassenger pid).isSome) :
    ∃ r s1, loadTricycle s k now = (some r, s1) ∧
      r.wait = 0 ∧
      r.passengers = T.passengers.take
        (min (t.capacity - t.passengers.length) T.passengers.length) ∧
      (r.passengers = [] → r.tricycle = none) ∧
      (r.passengers ≠ [] → r.tricycle = some tid) ∧
      (s1.terminals.get? k).map Terminal.passengers =
        some (T.passengers.drop
          (min (t.capacity - t.passengers.length) T.passengers.length)) ∧
      (s1.findTrike tid).map Tricycle.passengers =
        some (t.passengers ++ T.passengers.take
          (min (t.capacity - t.passengers.length) T.passengers.length)) := by
  have hqne : T.queue ≠ [] := by
    intro hh
    rw [hh] at hq
    cases hq
  have hklt : k < s.terminals.length := by
    obtain ⟨hlt, _⟩ := List.get?_eq_some.mp hT
    exact hlt
  obtain ⟨h1, h2, h3, h4, h5, h6⟩ := loadTricycleGo_spec now T.passengers t s [] hres
  rcases hE : loadTricycleGo now t s T.passengers [] with ⟨t2, s2, loaded, remaining⟩
  rw [hE] at h1 h2 h3 h4 h5 h6
  simp only at h1 h2 h3 h4 h5 h6
  refine ⟨⟨if loaded = [] then none else some tid, loaded, 0⟩,
    (s2.setTrike t2).setTerminal k { T with passengers := remaining },
    ?_, rfl, ?_, ?_, ?_, ?_, ?_⟩
  · simp only [loadTricycle, hT, hq, ht, hE, hqne, hpne]
    simp
  · simpa using h1
  · intro hl
    have hl2 : loaded = [] := hl
    simp [hl2]
  · intro hl
    have hl2 : loaded ≠ [] := hl
    simp [hl2]
  · have : ((s2.setTrike t2).setTerminal k { T with passengers := remaining }).terminals =
        (s2.terminals.set k { T with passengers := remaining }) := by
      simp [SimState.setTerminal, SimState.setTrike]
    rw [show ((s2.setTrike t2).setTerminal k
        { T with passengers := remaining }).terminals.get? k =
      some { T with passengers := remaining } from by
        rw [this]
        exact List.get?_set_eq_of_lt _ (by rw [h5]; exact hklt)]
    simp [h2]
  · have htr : ((s2.setTrike t2).setTerminal k
        { T with passengers := remaining }).findTrike tid =
        (s2.setTrike t2).findTrike tid := rfl
    rw [htr]
    have hs2 : s2.findTrike tid = some t := by
      unfold SimState.findTrike
      rw [h6]
      exact ht
    rw [findTrike_setTrike_self s2 t2 t tid (by rw [h4]; exact findTrike_id s tid t ht) hs2]
    simp [h3]

/-- A capacity-1 tricycle already carrying one passenger, queued at a
terminal with one waiting passenger. -/
def c8Trike : Tricycle :=
  { id := 0
    capacity := 1
    speed := 6
    active := false
    useMeters := true
    isRoaming := false
    roamPath := none
    passengers := [5]
    enqueuedPassengers := ∅
    status := .terminal
    totalDistance := 0
    totalProductiveDistance := 0
    totalDistanceM := 0
    totalProductiveDistanceM := 0
    waitingTime := 0
    toGo := []
    path := [⟨0, 0⟩]
    events := [] }

/-- The terminal of the C8 counterexample. -/
def c8Terminal : Terminal :=
  { location := ⟨0, 0⟩
    capacity := 20
    queue := [0]
    passengers := [9] }

/-- The world for the C8 counterexample: both terminal queues nonempty, yet
the head tricycle is already full. -/
def c8State : SimState :=
  { passengers := [Passenger.init 5 ⟨0, 0⟩ ⟨1, 1⟩ 0 (-1),
      Passenger.init 9 ⟨0, 0⟩ ⟨2, 2⟩ 0 (-1)]
    mapPassengers := []
    trikes := [c8Trike]
    terminals := [c8Terminal]
    time := 3
    lastActive := -1
    isRealistic := true }

/-- C8, counterexample: with both queues nonempty but nothing loadable, the
source returns the result record with a None tricycle and an empty loaded
list - not None as the claim states. -/
theorem c8_nothing_loaded_returns_record :
    (c8State.terminals.get? 0).map Terminal.queue = some [0] ∧
      (c8State.terminals.get? 0).map Terminal.passengers = some [9] ∧
      (loadTricycle c8State 0 3).1 =
        some { tricycle := none, passengers := [], wait := 0 } ∧
      (loadTricycle c8State 0 3).1 ≠ none := by
  decide

/-- A capacity-3 tricycle at the head of a terminal queue with five waiting
passengers (the E6 scenario shape). -/
def c8wTrike : Tricycle :=
  { c8Trike with passengers := [], capacity := 3 }

/-- The terminal of the C8 witness. -/
def c8wTerminal : Terminal :=
  { location := ⟨0, 0⟩
    capacity := 20
    queue := [0]
    passengers := [1, 2, 3, 4, 5] }

/-- The world for the C8 witness. -/
def c8wState : SimState :=
  { passengers := [Passenger.init 1 ⟨0, 0⟩ ⟨1, 1⟩ 0 (-1),
      Passenger.init 2 ⟨0, 0⟩ ⟨1, 1⟩ 0 (-1),
      Passenger.init 3 ⟨0, 0⟩ ⟨1, 1⟩ 0 (-1),
      Passenger.init 4 ⟨0, 0⟩ ⟨1, 1⟩ 0 (-1),
      Passenger.init 5 ⟨0, 0⟩ ⟨1, 1⟩ 0 (-1)]
    mapPassengers := []
    trikes := [c8wTrike]
    terminals := [c8wTerminal]
    time := 3
    lastActive := -1
    isRealistic := true }

/-- C8, witness: the head-of-line characterization evaluated on the concrete
E6-shaped world: the head vehicle takes the first three passengers and the
other two stay queued. -/
theorem c8_load_head_characterization_witness :
    ∃ r s1, loadTricycle c8wState 0 3 = (some r, s1) ∧
      r.wait = 0 ∧
      r.passengers = [1, 2, 3, 4, 5].take
        (min (c8wTrike.capacity - c8wTrike.passengers.length) 5) ∧
      (r.passengers = [] → r.tricycle = none) ∧
      (r.passengers ≠ [] → r.tricycle = some 0) ∧
      (s1.terminals.get? 0).map Terminal.passengers =
        some ([1, 2, 3, 4, 5].drop
          (min (c8wTrike.capacity - c8wTrike.passengers.length) 5)) ∧
      (s1.findTrike 0).map Tricycle.passengers =
        some (c8wTrike.passengers ++ [1, 2, 3, 4, 5].take
          (min (c8wTrike.capacity - c8wTrike.passengers.length) 5)) :=
  c8_load_head_characterization c8wState 0 3 c8wTerminal 0 c8wTrike
    (by decide) (by decide) (by decide) (by decide) (by decide)

/-- totalLt is transitive (none is math.inf). -/
theorem totalLt_trans (a b c : Option ℚ) (h1 : totalLt a b = true)
    (h2 : totalLt b c = true) : totalLt a c = true := by
  cases a <;> cases b <;> cases c <;> simp [totalLt] at * <;> linarith

/-- If a beats the bound and b does not, then a beats b. -/
theorem totalLt_trans_left (a b l : Option ℚ) (h1 : totalLt a l = true)
    (h2 : totalLt b l = false) : totalLt a b = true := by
  cases a <;> cases b <;> cases l <;> simp [totalLt] at * <;> linarith

/-- totalLt is asymmetric. -/
theorem totalLt_asymm (a b : Option ℚ) (h : totalLt a b = true) :
    totalLt b a = false := by
  cases a <;> cases b <;> simp [totalLt] at * <;> linarith

/-- totalLt is irreflexive. -/
theorem totalLt_irrefl (a : Option ℚ) : totalLt a a = false := by
  cases a <;> simp [totalLt]

/-- A fold of bruteStep over permutations none of which beat the running
least leaves the accumulator unchanged. -/
theorem bruteFold_no_improve (leg : Point → Point → Option ℚ) (src : Point) :
    ∀ (L : List (List (Nat × Passenger))) (st : BruteAcc),
      (∀ o ∈ L, totalLt (orderTotal leg src o) st.least = false) →
      L.foldl (bruteStep leg src) st = st := by
  intro L
  induction L with
  | nil => intro st h; rfl
  | cons o rest ih =>
    intro st h
    have ho := h o (by simp)
    simp only [List.foldl_cons, bruteStep, ho, if_false]
    exact ih st (fun o2 h2 => h o2 (by simp [h2]))

/-- The selection fold of sort_path_brute picks the first permutation
attaining the least total: the enumeration splits around a winner that beats
the incoming bound, beats everything before it strictly, is not beaten by
anything after it, and is exactly the final accumulator. -/
theorem bruteFold_first_min (leg : Point → Point → Option ℚ) (src : Point) :
    ∀ (L : List (List (Nat × Passenger))) (st : BruteAcc),
      (∃ o ∈ L, totalLt (orderTotal leg src o) st.least = true) →
      ∃ L1 m L2, L = L1 ++ m :: L2 ∧
        totalLt (orderTotal leg src m) st.least = true ∧
        (∀ o ∈ L1, totalLt (orderTotal leg src m) (orderTotal leg src o) = true) ∧
        (∀ o ∈ L2, totalLt (orderTotal leg src o) (orderTotal leg src m) = false) ∧
        L.foldl (bruteStep leg src) st =
          { least := orderTotal leg src m
            bestOrder := some (m.map Prod.snd)
            startIndex := headIndex m } := by
  intro L
  induction L with
  | nil =>
    intro st h
    simp at h
  | cons o rest ih =>
    intro st h
    by_cases ho : totalLt (orderTotal leg src o) st.least = true
    · have hstep : bruteStep leg src st o =
          { least := orderTotal leg src o
            bestOrder := some (o.map Prod.snd)
            startIndex := headIndex o } := by
        simp only [bruteStep, ho, if_true]
      by_cases hrest : ∃ o2 ∈ rest,
          totalLt (orderTotal leg src o2) (orderTotal leg src o) = true
      · obtain ⟨L1, m, L2, hdec, hbeat, hbefore, hafter, hfold⟩ :=
          ih { least := orderTotal leg src o
               bestOrder := some (o.map Prod.snd)
               startIndex := headIndex o } hrest
        have hmo : totalLt (orderTotal leg src m) (orderTotal leg src o) = true :=
          hbeat
        refine ⟨o :: L1, m, L2, by simp [hdec], ?_, ?_, hafter, ?_⟩
        · exact totalLt_trans _ _ _ hmo ho
        · intro o2 h2
          rcases List.mem_cons.mp h2 with h2 | h2
          · rw [h2]
            exact hmo
          · exact hbefore o2 (by simpa using h2)
        · rw [List.foldl_cons, hstep]
          exact hfold
      · push_neg at hrest
        have hrest2 : ∀ o2 ∈ rest,
            totalLt (orderTotal leg src o2) (orderTotal leg src o) = false :=
          fun o2 h2 => Bool.eq_false_iff.mpr (hrest o2 h2)
        refine ⟨[], o, rest, rfl, ho, by simp, hrest2, ?_⟩
        rw [List.foldl_cons, hstep]
        exact bruteFold_no_improve leg src rest _ (fun o2 h2 => hrest2 o2 h2)
    · have hofalse : totalLt (orderTotal leg src o) st.least = false :=
        Bool.eq_false_iff.mpr ho
      have hstep : bruteStep leg src st o = st := by
        simp only [bruteStep, hofalse]
        simp
      have hrest : ∃ o2 ∈ rest, totalLt (orderTotal leg src o2) st.least = true := by
        obtain ⟨o2, h2, h3⟩ := h
        rcases List.mem_cons.mp h2 with h2 | h2
        · rw [h2] at h3
          exact absurd h3 ho
        · exact ⟨o2, h2, h3⟩
      obtain ⟨L1, m, L2, hdec, hbeat, hbefore, hafter, hfold⟩ := ih st hrest
      refine ⟨o :: L1, m, L2, by simp [hdec], hbeat, ?_, hafter, ?_⟩
      · intro o2 h2
        rcases List.mem_cons.mp h2 with h2 | h2
        · rw [h2]
          exact totalLt_trans_left _ _ _ hbeat hofalse
        · exact hbefore o2 (by simpa using h2)
      · rw [List.foldl_cons, hstep]
        exact hfold

/-- Each selection of picks is a permutation of the input with the picked
element in front. -/
theorem picks_mem_perm {α : Type} :
    ∀ (xs : List α) (y : α) (ys : List α),
      (y, ys) ∈ picks xs → (y :: ys).Perm xs := by
  intro xs
  induction xs with
  | nil => intro y ys h; simp [picks] at h
  | cons x xt ih =>
    intro y ys h
    simp only [picks, List.mem_cons] at h
    rcases h with h | h
    · rw [Prod.mk.injEq] at h
      rw [h.1, h.2]
    · simp only [List.mem_map] at h
      obtain ⟨⟨y2, ys2⟩, h2, h3⟩ := h
      rw [Prod.mk.injEq] at h3
      have hperm := ih y2 ys2 h2
      rw [← h3.1, ← h3.2]
      exact (List.Perm.swap x y2 ys2).trans (hperm.cons x)

/-- The first occurrence of a member can be picked, leaving the erasure. -/
theorem picks_first {α : Type} [DecidableEq α] (xs : List α) (y : α)
    (h : y ∈ xs) : (y, xs.erase y) ∈ picks xs := by
  induction xs with
  | nil => cases h
  | cons x xt ih =>
    by_cases hxy : x = y
    · subst hxy
      rw [List.erase_cons_head]
      simp [picks]
    · have hmem : y ∈ xt := by
        rcases List.mem_cons.mp h with h | h
        · exact absurd h.symm hxy
        · exact h
      rw [List.erase_cons_tail]
      · simp only [picks, List.mem_cons, List.mem_map]
        exact Or.inr ⟨(y, xt.erase y), ih hmem, rfl⟩
      · simp [hxy]

/-- The length of a flat map with constant fiber length. -/
theorem length_flatMap_const {β γ : Type} (l : List β) (g : β → List γ)
    (c : Nat) (h : ∀ b ∈ l, (g b).length = c) :
    (l.flatMap g).length = l.length * c := by
  induction l with
  | nil => simp
  | cons b rest ih =>
    simp only [List.flatMap_cons, List.length_append, List.length_cons]
    rw [h b (by simp), ih (fun b2 h2 => h b2 (by simp [h2]))]
    ring

/-- picks has one entry per input position. -/
theorem picks_length {α : Type} : ∀ (xs : List α),
    (picks xs).length = xs.length := by
  intro xs
  induction xs with
  | nil => rfl
  | cons x xt ih => simp [picks, ih]

/-- pyPermsAux enumerates exactly n! lists when fed a length-n input. -/
theorem pyPermsAux_length {α : Type} :
    ∀ (n : Nat) (xs : List α), xs.length = n →
      (pyPermsAux n xs).length = n.factorial := by
  intro n
  induction n with
  | zero => intro xs h; rfl
  | succ n ih =>
    intro xs h
    simp only [pyPermsAux]
    rw [length_flatMap_const _ _ n.factorial]
    · rw [picks_length, h, Nat.factorial_succ]
    · intro yp hyp
      rw [List.length_map]
      apply ih
      have := (picks_mem_perm xs yp.1 yp.2 hyp).length_eq
      simp at this
      omega

/-- Members of the pyPermsAux enumeration are permutations of the input. -/
theorem pyPermsAux_sound {α : Type} :
    ∀ (n : Nat) (xs : List α) (o : List α),
      xs.length = n → o ∈ pyPermsAux n xs → o.Perm xs := by
  intro n
  induction n with
  | zero =>
    intro xs o h ho
    have hxs : xs = [] := List.length_eq_zero.mp h
    simp only [pyPermsAux, List.mem_singleton] at ho
    rw [ho, hxs]
  | succ n ih =>
    intro xs o h ho
    simp only [pyPermsAux, List.mem_flatMap] at ho
    obtain ⟨yp, hyp, hmem⟩ := ho
    simp only [List.mem_map] at hmem
    obtain ⟨r, hr, hro⟩ := hmem
    have hperm := picks_mem_perm xs yp.1 yp.2 hyp
    have hlen : yp.2.length = n := by
      have := hperm.length_eq
      simp at this
      omega
    have := (ih yp.2 r hlen hr).cons yp.1
    rw [← hro] at *
    exact this.trans hperm

/-- Every permutation of the input appears in the pyPermsAux enumeration. -/
theorem pyPermsAux_complete {α : Type} [DecidableEq α] :
    ∀ (n : Nat) (xs : List α) (o : List α),
      xs.length = n → o.Perm xs → o ∈ pyPermsAux n xs := by
  intro n
  induction n with
  | zero =>
    intro xs o h ho
    have hxs : xs = [] := List.length_eq_zero.mp h
    rw [hxs] at ho
    have : o = [] := List.Perm.eq_nil ho
    simp [pyPermsAux, this]
  | succ n ih =>
    intro xs o h ho
    cases o with
    | nil =>
      have := ho.length_eq
      rw [h] at this
      cases this
    | cons y o2 =>
      have hyx : y ∈ xs := ho.mem_iff.mp (by simp)
      have hsplit := (List.cons_perm_iff_perm_erase).mp ho
      have hlen : (xs.erase y).length = n := by
        rw [List.length_erase_of_mem hyx, h]
        omega
      simp only [pyPermsAux, List.mem_flatMap]
      refine ⟨(y, xs.erase y), picks_first xs y hyx, ?_⟩
      simp only [List.mem_map]
      exact ⟨o2, ih (xs.erase y) o2 hlen hsplit.2, rfl⟩

/-- The statement of claim C6 for one input: sort_path_brute enumerates all
k! permutations, the winner has a road-feasible (finite) total, no
permutation beats it, everything enumerated before it is strictly worse
(ties break to enumeration order), and sort_path_brute together with
smart_scheduler return the first (index, passenger) of that winner. -/
def c6Prop (euclid : Point → Point → ℚ)
    (getDist : Point → Point → Option (List Point)) (src : Point)
    (ps : List Passenger) : Prop :=
  (pyPerms ((List.range ps.length).zip ps)).length = ps.length.factorial ∧
    (∀ o, o ∈ pyPerms ((List.range ps.length).zip ps) ↔
      o.Perm ((List.range ps.length).zip ps)) ∧
    ∃ L1 m L2, pyPerms ((List.range ps.length).zip ps) = L1 ++ m :: L2 ∧
      orderTotal (legCost euclid getDist) src m ≠ none ∧
      (∀ o ∈ pyPerms ((List.range ps.length).zip ps),
        totalLt (orderTotal (legCost euclid getDist) src o)
          (orderTotal (legCost euclid getDist) src m) = false) ∧
      (∀ o ∈ L1, totalLt (orderTotal (legCost euclid getDist) src m)
        (orderTotal (legCost euclid getDist) src o) = true) ∧
      ∃ i p rest2, m = (i, p) :: rest2 ∧
        sort_path_brute euclid getDist src ps = (some (m.map Prod.snd), i) ∧
        smart_scheduler euclid getDist src ps = (i, some p) ∧
        ps.get? i = some p

/-- C6: for a non-empty onboard list with at least one road-feasible
visiting order, the brute-force scheduler enumerates all k! permutations,
discards infinite-total ones, selects the first permutation of least total
distance, and smart_scheduler returns the (index, passenger) heading that
permutation. -/
theorem c6_brute_force_selects_first_min (euclid : Point → Point → ℚ)
    (getDist : Point → Point → Option (List Point)) (src : Point)
    (ps : List Passenger) (hne : ps ≠ [])
    (hfeas : ∃ o ∈ pyPerms ((List.range ps.length).zip ps),
      orderTotal (legCost euclid getDist) src o ≠ none) :
    c6Prop euclid getDist src ps := by
  have hwilen : ((List.range ps.length).zip ps).length = ps.length := by
    simp
  have hpp : pyPerms ((List.range ps.length).zip ps) =
      pyPermsAux ps.length ((List.range ps.length).zip ps) := by
    unfold pyPerms
    rw [hwilen]
  refine ⟨?_, ?_, ?_⟩
  · rw [hpp]
    exact pyPermsAux_length ps.length _ hwilen
  · intro o
    rw [hpp]
    exact ⟨fun h => pyPermsAux_sound ps.length _ o hwilen h,
      fun h => pyPermsAux_complete ps.length _ o hwilen h⟩
  · obtain ⟨o0, ho0, ho0f⟩ := hfeas
    have hbeats : ∃ o ∈ pyPerms ((List.range ps.length).zip ps),
        totalLt (orderTotal (legCost euclid getDist) src o)
          (⟨none, none, 0⟩ : BruteAcc).least = true := by
      refine ⟨o0, ho0, ?_⟩
      cases hv : orderTotal (legCost euclid getDist) src o0 with
      | none => exact absurd hv ho0f
      | some x => simp [totalLt]
    obtain ⟨L1, m, L2, hdec, hbeat, hbefore, hafter, hfold⟩ :=
      bruteFold_first_min (legCost euclid getDist) src _ _ hbeats
    have hmfin : orderTotal (legCost euclid getDist) src m ≠ none := by
      cases hv : orderTotal (legCost euclid getDist) src m with
      | none => rw [hv] at hbeat; simp [totalLt] at hbeat
      | some x => simp
    have hmin : ∀ o ∈ pyPerms ((List.range ps.length).zip ps),
        totalLt (orderTotal (legCost euclid getDist) src o)
          (orderTotal (legCost euclid getDist) src m) = false := by
      intro o ho
      rw [hdec] at ho
      rcases List.mem_append.mp ho with ho | ho
      · exact totalLt_asymm _ _ (hbefore o ho)
      · rcases List.mem_cons.mp ho with ho | ho
        · rw [ho]
          exact totalLt_irrefl _
        · exact hafter o ho
    have hmmem : m ∈ pyPerms ((List.range ps.length).zip ps) := by
      rw [hdec]
      simp
    have hmperm := pyPermsAux_sound ps.length _ m hwilen (hpp ▸ hmmem)
    have hmne : m ≠ [] := by
      intro hm
      have := hmperm.length_eq
      rw [hm, hwilen] at this
      exact hne (List.length_eq_zero.mp this.symm)
    obtain ⟨⟨i, p⟩, rest2, hm⟩ : ∃ y rest2, m = y :: rest2 := by
      cases m with
      | nil => exact absurd rfl hmne
      | cons y r => exact ⟨y, r, rfl⟩
    have hget : ps.get? i = some p := by
      have : (i, p) ∈ (List.range ps.length).zip ps := by
        apply hmperm.mem_iff.mp
        simp [hm]
      rw [← List.enum_eq_zip_range] at this
      exact List.mk_mem_enum_iff_get?.mp this
    refine ⟨L1, m, L2, hdec, hmfin, hmin, hbefore, i, p, rest2, hm, ?_, ?_, hget⟩
    · simp only [sort_path_brute]
      rw [hfold, hm]
      simp [headIndex]
    · simp only [smart_scheduler, sort_path_brute]
      rw [hfold, hm]
      simp only [headIndex]
      rw [Prod.mk.injEq]
      exact ⟨rfl, hget⟩

/-- C10: when every permutation contains an infeasible leg, the accumulator
is never replaced: sort_path_brute returns (None, 0) without failing, and
smart_scheduler silently degrades to the FIFO choice - index 0 and the head
passenger. -/
theorem c10_all_infeasible_degrades_to_fifo (euclid : Point → Point → ℚ)
    (getDist : Point → Point → Option (List Point)) (src : Point)
    (ps : List Passenger) (hne : ps ≠ [])
    (hinf : ∀ o ∈ pyPerms ((List.range ps.length).zip ps),
      orderTotal (legCost euclid getDist) src o = none) :
    sort_path_brute euclid getDist src ps = (none, 0) ∧
      smart_scheduler euclid getDist src ps = (0, ps.head?) := by
  have hfold := bruteFold_no_improve (legCost euclid getDist) src
    (pyPerms ((List.range ps.length).zip ps)) ⟨none, none, 0⟩
    (fun o ho => by rw [hinf o ho]; rfl)
  constructor
  · simp only [sort_path_brute]
    rw [hfold]
  · simp only [smart_scheduler, sort_path_brute]
    rw [hfold]
    rw [Prod.mk.injEq]
    exact ⟨rfl, List.get?_zero ps⟩

/-- The pure value of one road-path lookup: the router's polyline, or none
for any failure (get_distance converts every exception to None). -/
def routeResult (osrm : Router) (a b : Point) : Option (List Point) :=
  match osrm a b with
  | .ok raw => some raw
  | .error _ => none

/-- A cache is consistent with the router when every stored entry is the
router's own answer for its key. -/
def cacheConsistent (osrm : Router) (c : DistCache) : Prop :=
  ∀ k v, (k, v) ∈ c → v = routeResult osrm k.1 k.2

/-- Membership in a cache after an assignment. -/
theorem cacheSet_mem (c : DistCache) (k : Point × Point)
    (v : Option (List Point)) (k2 : Point × Point) (v2 : Option (List Point))
    (h : (k2, v2) ∈ cacheSet c k v) :
    (k2, v2) ∈ c ∨ (k2 = k ∧ v2 = v) := by
  unfold cacheSet at h
  by_cases hin : ((c.find? (fun e => e.1 = k)).isSome : Prop)
  · rw [if_pos hin] at h
    obtain ⟨e, he, heq⟩ := List.mem_map.mp h
    by_cases hek : e.1 = k
    · rw [if_pos hek] at heq
      right
      rw [Prod.mk.injEq] at heq
      exact ⟨heq.1.symm, heq.2.symm⟩
    · rw [if_neg hek] at heq
      left
      exact heq ▸ he
  · rw [if_neg hin] at h
    rcases List.mem_append.mp h with h | h
    · exact Or.inl h
    · right
      rw [List.mem_singleton, Prod.mk.injEq] at h
      exact h

/-- A truthy cache hit is a stored nonempty path, and it belongs to the
cache. -/
theorem pyGetTruthy_mem (c : DistCache) (k : Point × Point)
    (h : pyGetTruthy c k = true) :
    ∃ l : List Point, (k, some l) ∈ c ∧ cacheGet c k = some (some l) := by
  unfold pyGetTruthy cacheGet at h
  cases hf : c.find? (fun e => e.1 = k) with
  | none =>
    rw [hf] at h
    simp at h
  | some e =>
    rw [hf] at h
    simp only [Option.map_some'] at h
    cases hv : e.2 with
    | none =>
      rw [hv] at h
      simp at h
    | some l =>
      have hk : e.1 = k := by simpa using List.find?_some hf
      have hmem : e ∈ c := List.mem_of_find?_eq_some hf
      refine ⟨l, ?_, ?_⟩
      · rw [← hk, ← hv]
        exact hmem
      · unfold cacheGet
        rw [hf]
        simp [hv]

/-- Justification for modelling the per-leg lookup of sort_path_brute as a
pure function of the endpoints: for a deterministic router that answers both
directions alike, get_distance run over any consistent cache (in particular
any cache produced by earlier get_distance calls) returns exactly the pure
routeResult of the query, and leaves the cache consistent. -/
theorem get_distance_pure (osrm : Router)
    (hsym : ∀ a b, osrm a b = osrm b a) (c : DistCache)
    (hc : cacheConsistent osrm c) (p1 p2 : Point) :
    (get_distance osrm c p1 p2).1 = routeResult osrm p1 p2 ∧
      cacheConsistent osrm (get_distance osrm c p1 p2).2.1 := by
  unfold get_distance
  by_cases h1 : pyGetTruthy c (p1, p2) = true
  · obtain ⟨l, hmem, hget⟩ := pyGetTruthy_mem c (p1, p2) h1
    rw [if_pos h1, hget]
    exact ⟨(hc (p1, p2) (some l) hmem).symm ▸ rfl, hc⟩
  · by_cases h2 : pyGetTruthy c (p2, p1) = true
    · obtain ⟨l, hmem, hget⟩ := pyGetTruthy_mem c (p2, p1) h2
      rw [if_neg h1, if_pos h2, hget]
      refine ⟨?_, hc⟩
      have := hc (p2, p1) (some l) hmem
      simp only at this
      rw [this]
      unfold routeResult
      rw [hsym p1 p2]
      simp
    · rw [if_neg h1, if_neg h2]
      have hpres : ∀ v0 : Option (List Point), v0 = routeResult osrm p1 p2 →
          cacheConsistent osrm (cacheSet c (p1, p2) v0) := by
        intro v0 hv0 k v hkv
        rcases cacheSet_mem c (p1, p2) v0 k v hkv with h | h
        · exact hc k v h
        · rw [h.1, h.2, hv0]
      cases hr : osrm p1 p2 with
      | ok raw =>
        refine ⟨by unfold routeResult; rw [hr], ?_⟩
        exact hpres (some raw) (by unfold routeResult; rw [hr])
      | error e =>
        refine ⟨by unfold routeResult; rw [hr], ?_⟩
        exact hpres none (by unfold routeResult; rw [hr])

/-- Two concrete onboard passengers for the scheduler witnesses. -/
def c6wP1 : Passenger := Passenger.init 0 ⟨0, 0⟩ ⟨1, 0⟩ 0 (-1)

/-- Two concrete onboard passengers for the scheduler witnesses. -/
def c6wP2 : Passenger := Passenger.init 1 ⟨0, 0⟩ ⟨2, 0⟩ 0 (-1)

/-- A Euclidean metric oracle for the scheduler witnesses. -/
def c6wEuclid : Point → Point → ℚ := fun _ _ => 0

/-- A road-path oracle with an empty polyline for every query. -/
def c6wGetDist : Point → Point → Option (List Point) := fun _ _ => some []

/-- A road-path oracle with no route for any query. -/
def c10wGetDist : Point → Point → Option (List Point) := fun _ _ => none

/-- C6, witness: the brute-force characterization evaluated on a concrete
two-passenger onboard list with all legs feasible. -/
theorem c6_brute_force_selects_first_min_witness :
    ([c6wP1, c6wP2] ≠ []) ∧
      (∃ o ∈ pyPerms ((List.range ([c6wP1, c6wP2] : List Passenger).length).zip
        [c6wP1, c6wP2]),
        orderTotal (legCost c6wEuclid c6wGetDist) ⟨0, 0⟩ o ≠ none) ∧
      c6Prop c6wEuclid c6wGetDist ⟨0, 0⟩ [c6wP1, c6wP2] :=
  ⟨by decide, by decide,
    c6_brute_force_selects_first_min c6wEuclid c6wGetDist ⟨0, 0⟩
      [c6wP1, c6wP2] (by decide) (by decide)⟩

/-- C10, witness: the FIFO degradation evaluated on a concrete onboard list
where no permutation has a feasible leg. -/
theorem c10_all_infeasible_degrades_to_fifo_witness :
    ([c6wP1] ≠ []) ∧
      (∀ o ∈ pyPerms ((List.range ([c6wP1] : List Passenger).length).zip
        [c6wP1]),
        orderTotal (legCost c6wEuclid c10wGetDist) ⟨0, 0⟩ o = none) ∧
      sort_path_brute c6wEuclid c10wGetDist ⟨0, 0⟩ [c6wP1] = (none, 0) ∧
      smart_scheduler c6wEuclid c10wGetDist ⟨0, 0⟩ [c6wP1] =
        (0, ([c6wP1] : List Passenger).head?) :=
  ⟨by decide, by decide,
    c10_all_infeasible_degrades_to_fifo c6wEuclid c10wGetDist ⟨0, 0⟩
      [c6wP1] (by decide) (by decide)⟩

/-- C5: one simulation tick is exactly the claimed sequence: the
offload-enqueue-load loop over active vehicles (offload first, then
checkPassengers, which is enqueue_nearby followed by try_load), then the
movement loop with the stuck-vehicle fallback, then the terminal head-of-line
loops, then the clock advance of 1 tick (realistic) or MS_PER_FRAME = 1000
(non-realistic). -/
theorem c5_frame_sequence (env : Env) (s : SimState) :
    (processFrame env s =
      match offloadLoadPhase env s with
      | .error e => .error e
      | .ok s1 => .ok (advanceClock (terminalPhase (movePhase env s1)))) ∧
      (∀ (s0 : SimState) (tid : Nat), checkPassengers env s0 tid =
        match enqueueNearbyPassengers env s0 tid s0.time with
        | .error e => .error e
        | .ok r => tryLoad env r.2 tid r.2.time) ∧
      (advanceClock s).time = s.time + (if s.isRealistic then 1 else MS_PER_FRAME) ∧
      MS_PER_FRAME = 1000 := by
  refine ⟨?_, ?_, rfl, rfl⟩
  · unfold processFrame offloadLoadPhase movePhase terminalPhase advanceClock
    cases (trikeIds s).foldlM (offloadLoadStep env) s with
    | error e => rfl
    | ok s1 => rfl
  · intro s0 tid
    unfold checkPassengers
    cases enqueueNearbyPassengers env s0 tid s0.time with
    | error e => rfl
    | ok r => rfl

/-- C9, amended: a fault during the movement loop is isolated: the per-vehicle
handler turns any error of serviceMoveE into finishing that vehicle's trip
(inactive, FINISH event appended) and the loop carries on, so the frame
returns normally whenever the unprotected offload-enqueue-load loop does.
Faults in that first loop are not caught and abort the tick (see the
counterexample). -/
theorem c9_move_phase_fault_isolated :
    (∀ (env : Env) (s : SimState) (tid : Nat) (e : SimErr) (s2 : SimState)
      (t : Tricycle), serviceMoveE env s tid = .error (e, s2) →
        s2.findTrike tid = some t →
        moveStep env s tid = s2.setTrike (finishTrip t s2.time) ∧
          (finishTrip t s2.time).active = false ∧
          (finishTrip t s2.time).events.getLast? =
            some ⟨.finish, s2.time, none, t.curPoint⟩) ∧
      (∀ (env : Env) (s s1 : SimState), offloadLoadPhase env s = .ok s1 →
        ∃ s2, processFrame env s = .ok s2) := by
  constructor
  · intro env s tid e s2 t hserv hfind
    refine ⟨?_, rfl, ?_⟩
    · unfold moveStep
      rw [hserv]
      show (match s2.findTrike tid with
        | some t => s2.setTrike (finishTrip t s2.time)
        | none => s2) = s2.setTrike (finishTrip t s2.time)
      rw [hfind]
    · unfold finishTrip
      simp
  · intro env s s1 hok
    unfold processFrame
    unfold offloadLoadPhase at hok
    rw [hok]
    exact ⟨_, rfl⟩

/-- The passenger waiting near the faulting vehicle of the C9
counterexample. -/
def c9Passenger : Passenger := Passenger.init 3 ⟨0, 0⟩ ⟨1, 1⟩ 0 (-1)

/-- An active empty non-roaming tricycle next to a waiting passenger. -/
def c9Trike : Tricycle :=
  { id := 0
    capacity := 1
    speed := 6
    active := true
    useMeters := true
    isRoaming := false
    roamPath := none
    passengers := []
    enqueuedPassengers := ∅
    status := .returningToTerminal
    totalDistance := 0
    totalProductiveDistance := 0
    totalDistanceM := 0
    totalProductiveDistanceM := 0
    waitingTime := 0
    toGo := []
    path := [⟨0, 0⟩]
    events := [] }

/-- A second active tricycle that the tick should also service. -/
def c9TrikeB : Tricycle :=
  { c9Trike with id := 1 }

/-- The environment of the C9 counterexample: everything is nearby and every
router call fails transiently. -/
def c9Env : Env :=
  { hav := fun _ _ => 0
    euclid := fun _ _ => 0
    osrm := fun _ _ => .error .transient
    sameLoc := fun _ _ => false
    scheduler := none }

/-- The world of the C9 counterexample. -/
def c9State : SimState :=
  { passengers := [c9Passenger]
    mapPassengers := [3]
    trikes := [c9Trike, c9TrikeB]
    terminals := []
    time := 10
    lastActive := -1
    isRealistic := true }

/-- Inspect the error of a frame result. -/
def exceptErr (r : Except (SimErr × SimState) SimState) : Option SimErr :=
  match r with
  | .error (e, _) => some e
  | .ok _ => none

/-- Inspect the state carried by a frame error. -/
def exceptErrState (r : Except (SimErr × SimState) SimState) :
    Option SimState :=
  match r with
  | .error (_, s) => some s
  | .ok _ => none

/-- C9, counterexample: a transient router failure raised while the first
loop of the tick services vehicle 0 (during enqueue_nearby) is not caught:
the frame aborts, vehicle 0 is neither finished nor marked inactive (no
FINISH event), the second vehicle is never serviced, and the clock does not
advance - contradicting the claim that any exception during vehicle
servicing is caught, the faulting vehicle finished, and the tick completed
for the other vehicles. -/
theorem c9_phase_one_fault_aborts_tick :
    exceptErr (processFrame c9Env c9State) = some (.router .transient) ∧
      ((exceptErrState (processFrame c9Env c9State)).bind
          (fun s1 => s1.findTrike 0)).map Tricycle.active = some true ∧
      ((exceptErrState (processFrame c9Env c9State)).bind
          (fun s1 => s1.findTrike 0)).map
          (fun t => (t.events.filter (fun e => decide (e.etype = .finish))).length) =
        some 0 ∧
      ((exceptErrState (processFrame c9Env c9State)).bind
          (fun s1 => s1.findTrike 1)) = some c9TrikeB ∧
      (exceptErrState (processFrame c9Env c9State)).map SimState.time =
        some c9State.time := by
  decide

/-- The onboard passenger of the C9 witness vehicle. -/
def c9wPassenger : Passenger := Passenger.init 4 ⟨0, 0⟩ ⟨5, 5⟩ 0 (-1)

/-- A stuck serving tricycle with one onboard passenger and an empty path
queue. -/
def c9wTrike : Tricycle :=
  { c9Trike with capacity := 2, passengers := [4], status := .serving }

/-- The environment of the C9 witness: nothing is within reach and every
router call fails transiently. -/
def c9wEnv : Env :=
  { hav := fun _ _ => 100
    euclid := fun _ _ => 0
    osrm := fun _ _ => .error .transient
    sameLoc := fun _ _ => false
    scheduler := none }

/-- The world of the C9 witness. -/
def c9wState : SimState :=
  { passengers := [c9wPassenger]
    mapPassengers := []
    trikes := [c9wTrike]
    terminals := []
    time := 10
    lastActive := -1
    isRealistic := true }

/-- The state carried by the witness fault. -/
def c9wErrState : SimState :=
  match serviceMoveE c9wEnv c9wState 0 with
  | .error r => r.2
  | .ok s2 => s2

/-- An empty world whose first loop trivially succeeds. -/
def c9wEmptyState : SimState :=
  { passengers := []
    mapPassengers := []
    trikes := []
    terminals := []
    time := 0
    lastActive := -1
    isRealistic := true }

/-- C9, witness: the fault-isolation behavior evaluated on a concrete stuck
vehicle whose schedule-next fallback hits a transient router failure, and a
concrete world whose tick completes. -/
theorem c9_move_phase_fault_isolated_witness :
    (serviceMoveE c9wEnv c9wState 0 = .error (.router .transient, c9wErrState) ∧
      c9wErrState.findTrike 0 = some c9wTrike ∧
      moveStep c9wEnv c9wState 0 =
        c9wErrState.setTrike (finishTrip c9wTrike c9wErrState.time) ∧
      (finishTrip c9wTrike c9wErrState.time).active = false ∧
      (finishTrip c9wTrike c9wErrState.time).events.getLast? =
        some ⟨.finish, c9wErrState.time, none, c9wTrike.curPoint⟩) ∧
      ∃ s2, processFrame c9Env c9wEmptyState = .ok s2 := by
  have hserv : serviceMoveE c9wEnv c9wState 0 =
      .error (.router .transient, c9wErrState) := by decide
  have hfind : c9wErrState.findTrike 0 = some c9wTrike := by decide
  have hiso := c9_move_phase_fault_isolated.1 c9wEnv c9wState 0
    (.router .transient) c9wErrState c9wTrike hserv hfind
  exact ⟨⟨hserv, hfind, hiso.1, hiso.2.1, hiso.2.2⟩,
    c9_move_phase_fault_isolated.2 c9Env c9wEmptyState c9wEmptyState rfl⟩

end TricycleSim
